import Mathlib

/-!
Shallow embedding of the FantasyDraftTracker draft core
(`src/draft_manager/draft_state.py`, `draft_rules.py`, `roster_validator.py`,
`draft_controller.py`) and of the dynamic VOR calculator
(`src/simulation_engine/vor_calculator.py`, with the constants of
`src/data_pipeline/config.py` and `src/simulation_engine/config.py`).

Conventions of the embedding:
* Python dicts keyed by slot/position name become association lists
  (`List (String × _)`); `dict.get(k, d)` becomes `(List.lookup k m).getD d`.
  Python dict keys are unique, so first-match semantics agree.
* Python floats become `Rat`; every arithmetic expression in the source is a
  product/quotient that the claims only inspect algebraically.
* Imperative mutation becomes explicit state passing: a controller operation
  takes the `DraftState` and returns the (possibly unchanged) new state next
  to an `Except`-style result, mirroring raise-vs-return in the source.
* `datetime.now().isoformat()` becomes an explicit `now : String` argument
  (always a nonempty string in Python).
* A Python player-info dict that is missing (`{}`, falsy) is `none`; a
  missing or empty `position` field is the empty string (both are falsy in
  the source's `if not position` check).
-/

/-- Read a slot's list from a roster dict, mirroring Python
`roster.get(slot, [])` / `len(self.roster.get(position, []))`. -/
def alGetList (m : List (String × List String)) (k : String) : List String :=
  (List.lookup k m).getD []

/-- Append `v` to the list stored at key `k`, creating the key with `[v]` at
the end when absent: the embedding of
`if slot not in self.roster: self.roster[slot] = []` followed by
`self.roster[slot].append(player_id)` (Python dicts append new keys at the
end and mutate the first=only matching key otherwise). -/
def alAppendVal : List (String × List String) → String → String → List (String × List String)
  | [], k, v => [(k, [v])]
  | (k0, l0) :: rest, k, v =>
    if k0 = k then (k0, l0 ++ [v]) :: rest else (k0, l0) :: alAppendVal rest k v

/-- Remove the first occurrence of `v` from the list at key `k`, leaving the
map unchanged when the key is absent: the embedding of
`if slot in self.roster: self.roster[slot].remove(player_id)` (the source's
`list.remove` raises when `v` is absent; at every call site of the rollback
path `v` was just appended, so it is present). -/
def alEraseVal : List (String × List String) → String → String → List (String × List String)
  | [], _, _ => []
  | (k0, l0) :: rest, k, v =>
    if k0 = k then (k0, l0.erase v) :: rest else (k0, l0) :: alEraseVal rest k v

/-- One catalog entry (`player_data[pid]`): the fields the draft core and the
VOR calculator read. `baseline_vor` and `projections` are per-scoring-format
maps. A missing `position`/`name` key is represented by `""`. -/
structure Player where
  player_id : String
  name : String
  position : String
  team : String
  baseline_vor : List (String × Rat)
  projections : List (String × Rat)
  deriving Repr, DecidableEq, Inhabited

/-- `TeamRoster` from `draft_state.py`. -/
structure TeamRoster where
  team_id : Nat
  team_name : String
  is_human : Bool
  roster : List (String × List String)
  picks : List String
  deriving Repr, DecidableEq, Inhabited

/-- `TeamRoster.get_roster_count`. -/
def TeamRoster.get_roster_count (t : TeamRoster) (position : String) : Nat :=
  (alGetList t.roster position).length

/-- `TeamRoster.add_player`. -/
def TeamRoster.add_player (t : TeamRoster) (player_id slot : String) : TeamRoster :=
  { t with roster := alAppendVal t.roster slot player_id,
           picks := t.picks ++ [player_id] }

/-- `TeamRoster.remove_player` (used only by the controller's rollback). -/
def TeamRoster.remove_player (t : TeamRoster) (player_id slot : String) : TeamRoster :=
  { t with roster := alEraseVal t.roster slot player_id,
           picks := t.picks.erase player_id }

/-- `Pick` from `draft_state.py`; `Pick.create` fills the timestamp. -/
structure Pick where
  pick_number : Nat
  round : Nat
  team_id : Nat
  player_id : String
  timestamp : String
  slot : Option String
  deriving Repr, DecidableEq, Inhabited

/-- `Pick.create` with the clock made explicit. -/
def Pick.create (pick_number round team_id : Nat) (player_id : String)
    (now : String) (slot : Option String) : Pick :=
  { pick_number := pick_number, round := round, team_id := team_id,
    player_id := player_id, timestamp := now, slot := slot }

/-- `LeagueConfig` from `draft_state.py`. -/
structure LeagueConfig where
  league_id : String
  league_size : Nat
  scoring_format : String
  draft_type : String
  draft_mode : String
  data_year : Nat
  roster_slots : List (String × Nat)
  deriving Repr, DecidableEq, Inhabited

/-- `LeagueConfig.total_rounds`: sum of all slot capacities. The source
raises `ValueError` when `roster_slots` is empty; theorems that depend on
this function carry a nonemptiness hypothesis. -/
def LeagueConfig.total_rounds (c : LeagueConfig) : Nat :=
  (c.roster_slots.map Prod.snd).sum

/-- `LeagueConfig.get_position_limit`: `roster_slots.get(position, 0)`. -/
def LeagueConfig.get_position_limit (c : LeagueConfig) (position : String) : Nat :=
  (List.lookup position c.roster_slots).getD 0

/-- `DraftState` from `draft_state.py`. -/
structure DraftState where
  draft_id : String
  league_config : LeagueConfig
  draft_start_time : String
  current_pick : Nat
  current_round : Nat
  current_team_id : Nat
  draft_order : List Nat
  teams : List TeamRoster
  all_picks : List Pick
  available_players : List String
  player_data : List (String × Player)
  is_complete : Bool
  completed_at : Option String
  deriving Repr, DecidableEq, Inhabited

/-- `DraftState.create_new`: the factory. Validation failures become
`Except.error`; `uuid` and the clock are explicit arguments. -/
def DraftState.create_new (league_config : LeagueConfig) (team_names : List String)
    (human_team_id : Nat) (player_data : List (String × Player))
    (draft_id now : String) : Except String DraftState :=
  if team_names.length ≠ league_config.league_size then
    .error ("team_names length (" ++ toString team_names.length ++
      ") must match league_size (" ++ toString league_config.league_size ++ ")")
  else if ¬ human_team_id < league_config.league_size then
    .error ("human_team_id (" ++ toString human_team_id ++
      ") must be in range [0, " ++ toString league_config.league_size ++ ")")
  else
    .ok
      { draft_id := draft_id
        league_config := league_config
        draft_start_time := now
        current_pick := 1
        current_round := 1
        current_team_id := (List.range league_config.league_size).getD 0 0
        draft_order := List.range league_config.league_size
        teams := (team_names.enum.map fun p =>
          { team_id := p.1
            team_name := p.2
            is_human := p.1 = human_team_id
            roster := league_config.roster_slots.map fun q => (q.1, [])
            picks := [] })
        all_picks := []
        available_players := player_data.map Prod.fst
        player_data := player_data
        is_complete := false
        completed_at := none }

/-- `DraftState.get_team`: `self.teams[team_id]`. The source raises
`IndexError` on an out-of-range id; theorems that reach this accessor carry
a `team_id < teams.length` hypothesis. -/
def DraftState.get_team (s : DraftState) (team_id : Nat) : TeamRoster :=
  s.teams.getD team_id default

/-- `DraftState.is_player_available`. -/
def DraftState.is_player_available (s : DraftState) (player_id : String) : Bool :=
  s.available_players.contains player_id

/-- `DraftState.get_player_info`: `player_data.get(player_id, {})`, with the
empty (falsy) dict represented as `none`. -/
def DraftState.get_player_info (s : DraftState) (player_id : String) : Option Player :=
  List.lookup player_id s.player_data

/-- `DraftState.advance_to_next_pick`. Division/modulo by `league_size`
mirror Python `//` and `%` on naturals; the source would raise
`ZeroDivisionError` for a zero-size league, which configuration validation
rules out (league size 2–20). -/
def DraftState.advance_to_next_pick (s : DraftState) : DraftState :=
  if s.is_complete then s
  else
    let n := s.league_config.league_size
    let cp := s.current_pick + 1
    let round := ((cp - 1) / n) + 1
    if s.league_config.draft_type = "snake" then
      let picks_in_round := (cp - 1) % n
      let team_index := if round % 2 = 1 then picks_in_round else n - 1 - picks_in_round
      { s with current_pick := cp, current_round := round,
               current_team_id := s.draft_order.getD team_index 0 }
    else
      let team_index := (cp - 1) % n
      { s with current_pick := cp, current_round := round,
               current_team_id := s.draft_order.getD team_index 0 }

/-- `DraftState.check_if_complete`, clock explicit. The guard
`if self.is_complete and not self.completed_at` uses Python truthiness, so
the embedding treats a stored empty string like `None`; the source only ever
stores nonempty `isoformat()` timestamps. -/
def DraftState.check_if_complete (s : DraftState) (now : String) : DraftState :=
  let total_picks := s.league_config.league_size * s.league_config.total_rounds
  let comp : Bool := decide (s.current_pick > total_picks)
  let s2 := { s with is_complete := comp }
  if comp = true ∧ s2.completed_at.getD "" = "" then
    { s2 with completed_at := some now }
  else s2

/-! ## Error messages (`draft_rules.py`, `draft_controller.py`)

The source raises `ValidationError(msg)`; a caller distinguishes error kinds
by the message. Each f-string is embedded as explicit concatenation. -/

/-- Check-1 failure text of `DraftRules.validate_pick`. -/
def turnMsg (team_id current_team_id : Nat) : String :=
  "Not team " ++ toString team_id ++ "\x27s turn (current: " ++
    toString current_team_id ++ ")"

/-- Check-2 failure text of `DraftRules.validate_pick`. -/
def notFoundMsg (player_id : String) : String :=
  "Player " ++ player_id ++ " not found in player database"

/-- Check-3 failure text of `DraftRules.validate_pick`
(`player_info.get("name", player_id)` resolves to the catalog name when that
field is present and nonempty, else the id). -/
def alreadyDraftedMsg (display_name : String) : String :=
  display_name ++ " has already been drafted"

/-- Check-4 failure text of `DraftRules.validate_pick`. -/
def noPositionMsg (player_id : String) : String :=
  "Player " ++ player_id ++ " has no position defined"

/-- Failure text of `DraftRules._validate_position_limit`. -/
def positionFullMsg (position : String) (current_count position_limit bench_count bench_limit : Nat) : String :=
  "Cannot draft another " ++ position ++ ". Position full (" ++
    toString current_count ++ "/" ++ toString position_limit ++
    "), no FLEX space, and bench full (" ++ toString bench_count ++ "/" ++
    toString bench_limit ++ ")"

/-- `DraftController.make_pick` completion guard text. -/
def draftCompleteMsg : String := "Draft is already complete"

/-- The defensive pool-inconsistency text of `DraftController.make_pick`. -/
def notInPoolMsg (player_id : String) : String :=
  "Player " ++ player_id ++ " not in available pool"

/-! ## `roster_validator.py` -/

/-- `RosterValidator.determine_roster_slot` (the validator holds the
league config; `FLEX_ELIGIBLE_POSITIONS = {"RB", "WR", "TE"}`). -/
def RosterValidator.determine_roster_slot (league_config : LeagueConfig)
    (team : TeamRoster) (player_position : String) : String :=
  if team.get_roster_count player_position < league_config.get_position_limit player_position then
    player_position
  else if (player_position = "RB" ∨ player_position = "WR" ∨ player_position = "TE") ∧
      team.get_roster_count "FLEX" < league_config.get_position_limit "FLEX" then
    "FLEX"
  else
    "BENCH"

/-! ## `draft_rules.py` -/

/-- `DraftRules._validate_position_limit`. -/
def DraftRules.validate_position_limit (s : DraftState) (team : TeamRoster)
    (position : String) : Bool × Option String :=
  let roster_slots := s.league_config.roster_slots
  let current_count := team.get_roster_count position
  let position_limit := (List.lookup position roster_slots).getD 0
  if current_count < position_limit then (true, none)
  else if (position = "RB" ∨ position = "WR" ∨ position = "TE") ∧
      team.get_roster_count "FLEX" < (List.lookup "FLEX" roster_slots).getD 0 then
    (true, none)
  else if team.get_roster_count "BENCH" < (List.lookup "BENCH" roster_slots).getD 0 then
    (true, none)
  else
    (false, some (positionFullMsg position current_count position_limit
      (team.get_roster_count "BENCH") ((List.lookup "BENCH" roster_slots).getD 0)))

/-- Display name used by the check-3 message:
`player_info.get("name", player_id)` (a missing `name` key is embedded as
`""`, in which case the source's default is the player id). -/
def Player.display_name (info : Player) (player_id : String) : String :=
  if info.name = "" then player_id else info.name

/-- `DraftRules.validate_pick`: checks run in source order — turn (only in
`"simulation"` draft mode), existence, availability, team fetch, position
presence, position limit — short-circuiting on the first failure. The team
fetch `self.draft_state.get_team(team_id)` raises `IndexError` in Python on
an out-of-range id; theorems that reach it assume `team_id < teams.length`. -/
def DraftRules.validate_pick (s : DraftState) (team_id : Nat) (player_id : String) :
    Bool × Option String :=
  if s.league_config.draft_mode = "simulation" ∧ team_id ≠ s.current_team_id then
    (false, some (turnMsg team_id s.current_team_id))
  else
    match s.get_player_info player_id with
    | none => (false, some (notFoundMsg player_id))
    | some player_info =>
      if s.is_player_available player_id = false then
        (false, some (alreadyDraftedMsg (player_info.display_name player_id)))
      else
        let team := s.get_team team_id
        if player_info.position = "" then
          (false, some (noPositionMsg player_id))
        else
          match DraftRules.validate_position_limit s team player_info.position with
          | (true, _) => (true, none)
          | (false, e) => (false, e)

/-! ## `draft_controller.py` -/

/-- The mutation phase of `DraftController.make_pick` (source lines 47–66):
slot resolution, `Pick` construction, roster/pick-log appends, then the
availability removal with its defensive rollback. Returns the raised error
or the created `Pick`, next to the state as the caller observes it. On the
rollback branch the source undoes the roster/pick-list/log appends in
reverse order and raises; `player_info["position"]` would raise `KeyError`
for a missing catalog entry, which validation has already excluded. -/
def DraftController.pick_mutation (s : DraftState) (team_id : Nat)
    (player_id : String) (now : String) : Except String Pick × DraftState :=
  match s.get_player_info player_id with
  | none => (.error "KeyError: position", s)
  | some player_info =>
    let team := s.get_team team_id
    let slot := RosterValidator.determine_roster_slot s.league_config team player_info.position
    let pick := Pick.create s.current_pick s.current_round team_id player_id now (some slot)
    let team2 := team.add_player player_id slot
    let s2 := { s with teams := s.teams.set team_id team2,
                       all_picks := s.all_picks ++ [pick] }
    if s2.available_players.contains player_id then
      let s3 := { s2 with available_players := s2.available_players.erase player_id }
      (.ok pick, s3)
    else
      let team3 := team2.remove_player player_id slot
      let s4 := { s2 with teams := s2.teams.set team_id team3,
                          all_picks := s2.all_picks.dropLast }
      (.error (notInPoolMsg player_id), s4)

/-- `DraftController.make_pick`: completion guard, rule validation, the
mutation phase, then turn advancement and the completion check (the last
two only on success). A `(false, none)` validation result cannot arise but
is embedded as Python `str(None)`. -/
def DraftController.make_pick (s : DraftState) (team_id : Nat)
    (player_id : String) (now : String) : Except String Pick × DraftState :=
  if s.is_complete then (.error draftCompleteMsg, s)
  else
    match DraftRules.validate_pick s team_id player_id with
    | (false, e) => (.error (e.getD "None"), s)
    | (true, _) =>
      match DraftController.pick_mutation s team_id player_id now with
      | (.error e, s4) => (.error e, s4)
      | (.ok pick, s3) =>
        let s5 := (s3.advance_to_next_pick).check_if_complete now
        (.ok pick, s5)

/-! ## VOR constants (`data_pipeline/config.py`, `simulation_engine/config.py`) -/

/-- `VOR_BASELINE_COUNTS` (12-team league baselines). -/
def VOR_BASELINE_COUNTS : List (String × Nat) :=
  [("QB", 12), ("RB", 36), ("WR", 36), ("TE", 12), ("K", 12), ("DST", 12)]

/-- `POSITION_SCARCITY_WEIGHTS`. -/
def POSITION_SCARCITY_WEIGHTS : List (String × Rat) :=
  [("QB", 1.2), ("RB", 2.0), ("WR", 1.8), ("TE", 1.5), ("K", 1.0), ("DST", 1.0)]

/-- `ROSTER_NEED_WEIGHT`. -/
def ROSTER_NEED_WEIGHT : Rat := 0.5

/-! ## `simulation_engine/vor_calculator.py` -/

/-- `VORResult` from `simulation_engine/models.py` as consumed by the
calculator. -/
structure VORResult where
  player_id : String
  base_vor : Rat
  dynamic_vor : Rat
  scarcity_multiplier : Rat
  need_multiplier : Rat
  position : String
  position_rank : Nat
  deriving Repr, DecidableEq, Inhabited

/-- `DynamicVORCalculator._calculate_scarcity_multiplier`:
`VOR_BASELINE_COUNTS.get(position, 1)`, capped drafted percentage,
`POSITION_SCARCITY_WEIGHTS.get(position, 1.0)`. -/
def DynamicVORCalculator.calculate_scarcity_multiplier (position : String)
    (drafted_count : Nat) : Rat :=
  let total_startable : Nat := (List.lookup position VOR_BASELINE_COUNTS).getD 1
  let drafted_pct : Rat := min ((drafted_count : Rat) / (total_startable : Rat)) 1
  let weight : Rat := (List.lookup position POSITION_SCARCITY_WEIGHTS).getD 1
  1 + drafted_pct * weight

/-- `DynamicVORCalculator._count_position_slots`: the position's own slot,
plus the shared FLEX slot for `FLEX_ELIGIBLE_POSITIONS = {"RB","WR","TE"}`. -/
def DynamicVORCalculator.count_position_slots (position : String)
    (team_roster : List (String × List String))
    (roster_slots : List (String × Nat)) : Nat × Nat :=
  let filled := (alGetList team_roster position).length
  let total := (List.lookup position roster_slots).getD 0
  if position = "RB" ∨ position = "WR" ∨ position = "TE" then
    (filled + (alGetList team_roster "FLEX").length,
     total + (List.lookup "FLEX" roster_slots).getD 0)
  else
    (filled, total)

/-- `DynamicVORCalculator._calculate_need_multiplier`:
`1 + (max(total - filled, 0) / total) * ROSTER_NEED_WEIGHT`, with the
division-by-zero guard returning `1.0`. The inner subtraction is over ints
before the `max`, as in the source. -/
def DynamicVORCalculator.calculate_need_multiplier (position : String)
    (team_roster : List (String × List String))
    (roster_slots : List (String × Nat)) : Rat :=
  let ft := DynamicVORCalculator.count_position_slots position team_roster roster_slots
  if ft.2 = 0 then 1
  else
    let empty : Int := max ((ft.2 : Int) - (ft.1 : Int)) 0
    1 + ((empty : Rat) / (ft.2 : Rat)) * ROSTER_NEED_WEIGHT

/-- The comparison handed to the stable sort in
`_compute_position_ranks`: Python `sorted(key=baseline_vor, reverse=True)`
is a stable descending sort, i.e. a stable sort for the relation
`key b ≤ key a`. -/
def DynamicVORCalculator.vorDescLE (fmt : String) (a b : Player) : Bool :=
  decide ((List.lookup fmt b.baseline_vor).getD 0 ≤ (List.lookup fmt a.baseline_vor).getD 0)

/-- `enumerate(sorted_players, start=1)` writing `ranks[p.player_id] = rank`. -/
def assignRanks : Nat → List Player → List (String × Nat)
  | _, [] => []
  | r, p :: rest => (p.player_id, r) :: assignRanks (r + 1) rest

/-- Key order of the `by_position` dict built with `setdefault` in input
order: positions in order of first appearance. -/
def keyOrder (avail : List Player) : List String :=
  avail.foldl (fun acc pl => if pl.position ∈ acc then acc else acc ++ [pl.position]) []

/-- `DynamicVORCalculator._compute_position_ranks`: group the available
players by position (input order preserved), stably sort each group
descending by `baseline_vor[fmt]` (default `0.0`), then assign 1-based
ranks. Python's dict of ranks keyed by player id becomes an association
list; with pairwise-distinct player ids the two agree. -/
def DynamicVORCalculator.compute_position_ranks (fmt : String)
    (available_players : List Player) : List (String × Nat) :=
  ((keyOrder available_players).map fun pos =>
    assignRanks 1
      ((available_players.filter fun p => p.position == pos).mergeSort
        (DynamicVORCalculator.vorDescLE fmt))).flatten

/-- `DynamicVORCalculator.calculate_dynamic_vor`: one `VORResult` per
available player, keyed by player id (the source's result dict, in input
order). -/
def DynamicVORCalculator.calculate_dynamic_vor (fmt : String)
    (available_players : List Player) (drafted_positions : List (String × Nat))
    (roster_slots : List (String × Nat))
    (team_roster : List (String × List String)) : List (String × VORResult) :=
  let position_ranks := DynamicVORCalculator.compute_position_ranks fmt available_players
  available_players.map fun player =>
    let base_vor : Rat := (List.lookup fmt player.baseline_vor).getD 0
    let scarcity := DynamicVORCalculator.calculate_scarcity_multiplier player.position
      ((List.lookup player.position drafted_positions).getD 0)
    let need := DynamicVORCalculator.calculate_need_multiplier player.position
      team_roster roster_slots
    (player.player_id,
      { player_id := player.player_id
        base_vor := base_vor
        dynamic_vor := base_vor * scarcity * need
        scarcity_multiplier := scarcity
        need_multiplier := need
        position := player.position
        position_rank := (List.lookup player.player_id position_ranks).getD 0 })

/-! ## Player-pool partition invariant (C10) -/

/-- All player ids sitting in any slot list of one team's roster, with
multiplicity. -/
def TeamRoster.slotted_ids (t : TeamRoster) : List String :=
  (t.roster.map Prod.snd).flatten

/-- All player ids sitting in any roster slot list of any team, with
multiplicity. -/
def DraftState.rostered_ids (s : DraftState) : List String :=
  (s.teams.map TeamRoster.slotted_ids).flatten

/-- The pool-partition invariant: every catalog id occurs exactly once in
the availability pool and the rosters combined (so it is available XOR
slotted on exactly one team, never duplicated), and no id outside the
catalog occurs in either place. -/
def DraftState.PoolPartition (s : DraftState) : Prop :=
  (∀ pid : String, (List.lookup pid s.player_data).isSome →
    s.available_players.count pid + s.rostered_ids.count pid = 1) ∧
  (∀ pid : String, List.lookup pid s.player_data = none →
    s.available_players.count pid = 0 ∧ s.rostered_ids.count pid = 0)

/-- States reachable from `s` by any sequence of `make_pick` calls (the
only mutating controller operation), with the caller observing the
returned state whether the call succeeded or raised. Team ids are kept in
range: the source raises `IndexError` from the team fetch (mutating
nothing) before any roster write when the id is out of range. -/
inductive DraftReachable : DraftState → DraftState → Prop
  | refl (s : DraftState) : DraftReachable s s
  | step {s t : DraftState} (tid : Nat) (pid now : String)
      (htid : tid < t.teams.length)
      (h : DraftReachable s t) :
      DraftReachable s (DraftController.make_pick t tid pid now).2

/-! ## Concrete fixtures used by witness theorems -/

/-- A small 2-team league configuration. -/
def demoConfig : LeagueConfig :=
  { league_id := "league_2team", league_size := 2, scoring_format := "standard",
    draft_type := "snake", draft_mode := "simulation", data_year := 2025,
    roster_slots := [("QB", 1), ("RB", 2), ("WR", 2), ("TE", 1), ("FLEX", 1), ("BENCH", 1)] }

/-- A catalog entry with one scoring format worth of data. -/
def demoPlayer (pid pos : String) (v : Rat) : Player :=
  { player_id := pid, name := pid, position := pos, team := "FA",
    baseline_vor := [("standard", v)], projections := [("standard", v)] }

/-- A five-player catalog. -/
def demoCatalog : List (String × Player) :=
  [("qb1", demoPlayer "qb1" "QB" 10), ("qb2", demoPlayer "qb2" "QB" 8),
   ("rb1", demoPlayer "rb1" "RB" 20), ("rb2", demoPlayer "rb2" "RB" 20),
   ("wr1", demoPlayer "wr1" "WR" 15)]

/-- The freshly created demo draft. -/
def demoState : DraftState :=
  match DraftState.create_new demoConfig ["A", "B"] 0 demoCatalog "d1" "t0" with
  | .ok s => s
  | .error _ => default

/-- A demo team whose single QB slot is already filled. -/
def demoTeamQBFull : TeamRoster :=
  { team_id := 0, team_name := "A", is_human := true,
    roster := [("QB", ["qb1"]), ("RB", []), ("WR", []), ("TE", []), ("FLEX", []), ("BENCH", [])],
    picks := ["qb1"] }

/-- An empty demo roster dict. -/
def demoEmptyRoster : List (String × List String) :=
  [("QB", []), ("RB", []), ("WR", []), ("TE", []), ("FLEX", []), ("BENCH", [])]

/-- The demo draft with `rb1` spuriously missing from the availability
pool (the corruption scenario of the rollback path). -/
def demoCorrupt : DraftState :=
  { demoState with available_players := demoState.available_players.erase "rb1" }

/-- The demo draft with the completion flag forced on. -/
def demoComplete : DraftState := { demoState with is_complete := true }

/-! # Theorems -/

/-- C5: `determine_roster_slot` priority — the position's own slot while its
count is under capacity; else `FLEX`, but only for RB/WR/TE and only while
the FLEX count is under FLEX capacity; else `BENCH` unconditionally, with no
bench-capacity check (so e.g. a second QB under QB capacity 1 goes straight
to `BENCH`, skipping FLEX). -/
theorem determine_roster_slot_priority (cfg : LeagueConfig) (team : TeamRoster)
    (pos : String) :
    (team.get_roster_count pos < cfg.get_position_limit pos →
      RosterValidator.determine_roster_slot cfg team pos = pos) ∧
    (cfg.get_position_limit pos ≤ team.get_roster_count pos →
      (pos = "RB" ∨ pos = "WR" ∨ pos = "TE") →
      team.get_roster_count "FLEX" < cfg.get_position_limit "FLEX" →
      RosterValidator.determine_roster_slot cfg team pos = "FLEX") ∧
    (cfg.get_position_limit pos ≤ team.get_roster_count pos →
      ¬((pos = "RB" ∨ pos = "WR" ∨ pos = "TE") ∧
        team.get_roster_count "FLEX" < cfg.get_position_limit "FLEX") →
      RosterValidator.determine_roster_slot cfg team pos = "BENCH") := by
  refine ⟨fun h => ?_, fun h1 h2 h3 => ?_, fun h1 h2 => ?_⟩
  · rw [RosterValidator.determine_roster_slot, if_pos h]
  · rw [RosterValidator.determine_roster_slot, if_neg (by omega), if_pos ⟨h2, h3⟩]
  · rw [RosterValidator.determine_roster_slot, if_neg (by omega), if_neg h2]

/-- C5 witness: a second QB under QB capacity 1 is sent directly to BENCH. -/
theorem determine_roster_slot_priority_witness :
    RosterValidator.determine_roster_slot demoConfig demoTeamQBFull "QB" = "BENCH" :=
  (determine_roster_slot_priority demoConfig demoTeamQBFull "QB").2.2
    (by decide) (by decide)

/-- Every scarcity weight in the table (and the default) is nonnegative. -/
lemma scarcity_weight_nonneg (pos : String) :
    (0 : Rat) ≤ (List.lookup pos POSITION_SCARCITY_WEIGHTS).getD 1 := by
  simp only [POSITION_SCARCITY_WEIGHTS, List.lookup]
  repeat' split
  all_goals norm_num

/-- Every baseline starter count in the table (and the default) is positive. -/
lemma vor_baseline_count_pos (pos : String) :
    0 < (List.lookup pos VOR_BASELINE_COUNTS).getD 1 := by
  simp only [VOR_BASELINE_COUNTS, List.lookup]
  repeat' split
  all_goals norm_num

/-- C7: the scarcity multiplier is monotonically non-decreasing in the
drafted count, saturates (is constant) once the drafted count reaches the
position's baseline starter count, is never below 1, equals 2.2 for QB at
12 and at 20 drafted, and a position absent from the drafted-count map is
treated as 0 drafted by the calculator. -/
theorem scarcity_multiplier_monotone_saturating :
    (∀ (pos : String) (d1 d2 : Nat), d1 ≤ d2 →
      DynamicVORCalculator.calculate_scarcity_multiplier pos d1 ≤
        DynamicVORCalculator.calculate_scarcity_multiplier pos d2) ∧
    (∀ (pos : String) (d : Nat), (List.lookup pos VOR_BASELINE_COUNTS).getD 1 ≤ d →
      DynamicVORCalculator.calculate_scarcity_multiplier pos d =
        DynamicVORCalculator.calculate_scarcity_multiplier pos
          ((List.lookup pos VOR_BASELINE_COUNTS).getD 1)) ∧
    (∀ (pos : String) (d : Nat),
      1 ≤ DynamicVORCalculator.calculate_scarcity_multiplier pos d) ∧
    DynamicVORCalculator.calculate_scarcity_multiplier "QB" 12 = 2.2 ∧
    DynamicVORCalculator.calculate_scarcity_multiplier "QB" 20 = 2.2 ∧
    (∀ (fmt : String) (avail : List Player) (drafted : List (String × Nat))
        (slots : List (String × Nat)) (roster : List (String × List String)),
      ∀ e ∈ DynamicVORCalculator.calculate_dynamic_vor fmt avail drafted slots roster,
        List.lookup e.2.position drafted = none →
        e.2.scarcity_multiplier =
          DynamicVORCalculator.calculate_scarcity_multiplier e.2.position 0) := by
  have hkey : ∀ (pos : String) (d : Nat),
      DynamicVORCalculator.calculate_scarcity_multiplier pos d =
        1 + min ((d : Rat) / (((List.lookup pos VOR_BASELINE_COUNTS).getD 1 : Nat) : Rat)) 1 *
          (List.lookup pos POSITION_SCARCITY_WEIGHTS).getD 1 := by
    intro pos d; rfl
  refine ⟨?_, ?_, ?_, ?_, ?_, ?_⟩
  · intro pos d1 d2 h
    rw [hkey, hkey]
    have hw := scarcity_weight_nonneg pos
    have hc := vor_baseline_count_pos pos
    have hc2 : (0 : Rat) < (((List.lookup pos VOR_BASELINE_COUNTS).getD 1 : Nat) : Rat) := by
      exact_mod_cast hc
    gcongr
  · intro pos d h
    rw [hkey, hkey]
    have hc := vor_baseline_count_pos pos
    have hc2 : (0 : Rat) < (((List.lookup pos VOR_BASELINE_COUNTS).getD 1 : Nat) : Rat) := by
      exact_mod_cast hc
    have h1 : (1 : Rat) ≤ (d : Rat) / (((List.lookup pos VOR_BASELINE_COUNTS).getD 1 : Nat) : Rat) := by
      rw [le_div_iff₀ hc2]
      simpa using (by exact_mod_cast h :
        ((((List.lookup pos VOR_BASELINE_COUNTS).getD 1 : Nat) : Rat)) ≤ (d : Rat))
    rw [min_eq_right h1, min_eq_right (le_of_eq (div_self (ne_of_gt hc2)).symm)]
  · intro pos d
    rw [hkey]
    have hw := scarcity_weight_nonneg pos
    have hc := vor_baseline_count_pos pos
    have hc2 : (0 : Rat) < (((List.lookup pos VOR_BASELINE_COUNTS).getD 1 : Nat) : Rat) := by
      exact_mod_cast hc
    have hmin : (0 : Rat) ≤ min ((d : Rat) / (((List.lookup pos VOR_BASELINE_COUNTS).getD 1 : Nat) : Rat)) 1 :=
      le_min (div_nonneg (by positivity) (le_of_lt hc2)) (by norm_num)
    nlinarith [mul_nonneg hmin hw]
  · norm_num [DynamicVORCalculator.calculate_scarcity_multiplier,
      VOR_BASELINE_COUNTS, POSITION_SCARCITY_WEIGHTS, List.lookup]
  · norm_num [DynamicVORCalculator.calculate_scarcity_multiplier,
      VOR_BASELINE_COUNTS, POSITION_SCARCITY_WEIGHTS, List.lookup]
  · intro fmt avail drafted slots roster e he habsent
    unfold DynamicVORCalculator.calculate_dynamic_vor at he
    simp only [List.mem_map] at he
    obtain ⟨player, hmem, rfl⟩ := he
    simp only at habsent ⊢
    rw [habsent]
    rfl

/-- C7 witness: saturation applied at QB with 20 drafted. -/
theorem scarcity_multiplier_monotone_saturating_witness :
    DynamicVORCalculator.calculate_scarcity_multiplier "QB" 20 =
      DynamicVORCalculator.calculate_scarcity_multiplier "QB"
        ((List.lookup "QB" VOR_BASELINE_COUNTS).getD 1) :=
  scarcity_multiplier_monotone_saturating.2.1 "QB" 20 (by decide)

/-- C6: for every player priced in a calculator call, the dynamic VOR is
exactly the product of its own base VOR, scarcity multiplier and need
multiplier (no extra smoothing or clamping), and the need multiplier equals
`1 + (max(total - filled, 0) / total) * 0.5` where `filled`/`total` include
the shared FLEX slot for RB/WR/TE and only the position's own slot
otherwise, with `need = 1` when `total = 0`. -/
theorem dynamic_vor_product (fmt : String) (avail : List Player)
    (drafted : List (String × Nat)) (slots : List (String × Nat))
    (roster : List (String × List String)) :
    ∀ e ∈ DynamicVORCalculator.calculate_dynamic_vor fmt avail drafted slots roster,
      e.2.dynamic_vor = e.2.base_vor * e.2.scarcity_multiplier * e.2.need_multiplier ∧
      e.2.need_multiplier =
        (let isFlex : Prop := e.2.position = "RB" ∨ e.2.position = "WR" ∨ e.2.position = "TE"
         let filled : Nat := (alGetList roster e.2.position).length +
           (if isFlex then (alGetList roster "FLEX").length else 0)
         let total : Nat := (List.lookup e.2.position slots).getD 0 +
           (if isFlex then (List.lookup "FLEX" slots).getD 0 else 0)
         if total = 0 then 1
         else 1 + (((max ((total : Int) - (filled : Int)) 0 : Int) : Rat) / (total : Rat)) * (1 / 2)) := by
  intro e he
  unfold DynamicVORCalculator.calculate_dynamic_vor at he
  simp only [List.mem_map] at he
  obtain ⟨player, hmem, rfl⟩ := he
  refine ⟨rfl, ?_⟩
  simp only
  unfold DynamicVORCalculator.calculate_need_multiplier
    DynamicVORCalculator.count_position_slots
  have hw : ROSTER_NEED_WEIGHT = 1 / 2 := by norm_num [ROSTER_NEED_WEIGHT]
  by_cases hpos : player.position = "RB" ∨ player.position = "WR" ∨ player.position = "TE"
  · simp only [if_pos hpos, hw]
  · simp only [if_neg hpos, hw, Nat.add_zero]

/-- C6 witness: the product law read off a concrete single-player call. -/
theorem dynamic_vor_product_witness :
    ((DynamicVORCalculator.calculate_dynamic_vor "standard" [demoPlayer "rb1" "RB" 20] []
        demoConfig.roster_slots demoEmptyRoster).get ⟨0, by decide⟩).2.dynamic_vor =
      ((DynamicVORCalculator.calculate_dynamic_vor "standard" [demoPlayer "rb1" "RB" 20] []
        demoConfig.roster_slots demoEmptyRoster).get ⟨0, by decide⟩).2.base_vor *
      ((DynamicVORCalculator.calculate_dynamic_vor "standard" [demoPlayer "rb1" "RB" 20] []
        demoConfig.roster_slots demoEmptyRoster).get ⟨0, by decide⟩).2.scarcity_multiplier *
      ((DynamicVORCalculator.calculate_dynamic_vor "standard" [demoPlayer "rb1" "RB" 20] []
        demoConfig.roster_slots demoEmptyRoster).get ⟨0, by decide⟩).2.need_multiplier :=
  (dynamic_vor_product "standard" [demoPlayer "rb1" "RB" 20] []
      demoConfig.roster_slots demoEmptyRoster _ (List.get_mem _ _ _)).1

/-- `is_player_available` agrees with list membership. -/
lemma is_player_available_iff (s : DraftState) (pid : String) :
    s.is_player_available pid = true ↔ pid ∈ s.available_players := by
  simp [DraftState.is_player_available, List.contains_iff_exists_mem_beq]

/-- A passed turn check falsifies the source's check-1 condition. -/
lemma validate_turnpass_skip {s : DraftState} {tid : Nat}
    (hpass : s.league_config.draft_mode = "manual_tracker" ∨ tid = s.current_team_id) :
    ¬(s.league_config.draft_mode = "simulation" ∧ tid ≠ s.current_team_id) := by
  rintro ⟨h1, h2⟩
  rcases hpass with h | h
  · exact absurd (h1.symm.trans h) (by decide)
  · exact h2 h

/-- Check-1 failure. -/
lemma validate_pick_turn_fail {s : DraftState} {tid : Nat} {pid : String}
    (h1 : s.league_config.draft_mode = "simulation") (h2 : tid ≠ s.current_team_id) :
    DraftRules.validate_pick s tid pid = (false, some (turnMsg tid s.current_team_id)) := by
  unfold DraftRules.validate_pick
  rw [if_pos ⟨h1, h2⟩]

/-- Check-2 failure. -/
lemma validate_pick_notfound {s : DraftState} {tid : Nat} {pid : String}
    (hpass : s.league_config.draft_mode = "manual_tracker" ∨ tid = s.current_team_id)
    (hinfo : s.get_player_info pid = none) :
    DraftRules.validate_pick s tid pid = (false, some (notFoundMsg pid)) := by
  unfold DraftRules.validate_pick
  rw [if_neg (validate_turnpass_skip hpass)]
  simp only [hinfo]

/-- Check-3 failure. -/
lemma validate_pick_drafted {s : DraftState} {tid : Nat} {pid : String} {info : Player}
    (hpass : s.league_config.draft_mode = "manual_tracker" ∨ tid = s.current_team_id)
    (hinfo : s.get_player_info pid = some info)
    (hmem : pid ∉ s.available_players) :
    DraftRules.validate_pick s tid pid =
      (false, some (alreadyDraftedMsg (info.display_name pid))) := by
  unfold DraftRules.validate_pick
  rw [if_neg (validate_turnpass_skip hpass)]
  simp only [hinfo]
  have hav : s.is_player_available pid = false := by
    rcases h : s.is_player_available pid
    · rfl
    · exact absurd ((is_player_available_iff s pid).1 h) hmem
  rw [if_pos hav]

/-- Check-4 failure. -/
lemma validate_pick_noposition {s : DraftState} {tid : Nat} {pid : String} {info : Player}
    (hpass : s.league_config.draft_mode = "manual_tracker" ∨ tid = s.current_team_id)
    (hinfo : s.get_player_info pid = some info)
    (hmem : pid ∈ s.available_players)
    (hempty : info.position = "") :
    DraftRules.validate_pick s tid pid = (false, some (noPositionMsg pid)) := by
  unfold DraftRules.validate_pick
  rw [if_neg (validate_turnpass_skip hpass)]
  simp only [hinfo]
  have hav : ¬ s.is_player_available pid = false := by
    rw [(is_player_available_iff s pid).2 hmem]; exact fun h => nomatch h
  rw [if_neg hav, if_pos hempty]

/-- Check-5 failure. -/
lemma validate_pick_limit_fail {s : DraftState} {tid : Nat} {pid : String} {info : Player}
    (hpass : s.league_config.draft_mode = "manual_tracker" ∨ tid = s.current_team_id)
    (hinfo : s.get_player_info pid = some info)
    (hmem : pid ∈ s.available_players)
    (hempty : info.position ≠ "")
    (hlim : (DraftRules.validate_position_limit s (s.get_team tid) info.position).1 = false) :
    DraftRules.validate_pick s tid pid =
      (false, (DraftRules.validate_position_limit s (s.get_team tid) info.position).2) := by
  unfold DraftRules.validate_pick
  rw [if_neg (validate_turnpass_skip hpass)]
  simp only [hinfo]
  have hav : ¬ s.is_player_available pid = false := by
    rw [(is_player_available_iff s pid).2 hmem]; exact fun h => nomatch h
  rw [if_neg hav, if_neg hempty]
  rcases hpl : DraftRules.validate_position_limit s (s.get_team tid) info.position with ⟨b, m⟩
  rw [hpl] at hlim
  simp only at hlim
  subst hlim
  simp

/-- All checks pass. -/
lemma validate_pick_all_pass {s : DraftState} {tid : Nat} {pid : String} {info : Player}
    (hpass : s.league_config.draft_mode = "manual_tracker" ∨ tid = s.current_team_id)
    (hinfo : s.get_player_info pid = some info)
    (hmem : pid ∈ s.available_players)
    (hempty : info.position ≠ "")
    (hlim : (DraftRules.validate_position_limit s (s.get_team tid) info.position).1 = true) :
    DraftRules.validate_pick s tid pid = (true, none) := by
  unfold DraftRules.validate_pick
  rw [if_neg (validate_turnpass_skip hpass)]
  simp only [hinfo]
  have hav : ¬ s.is_player_available pid = false := by
    rw [(is_player_available_iff s pid).2 hmem]; exact fun h => nomatch h
  rw [if_neg hav, if_neg hempty]
  rcases hpl : DraftRules.validate_position_limit s (s.get_team tid) info.position with ⟨b, m⟩
  rw [hpl] at hlim
  simp only at hlim
  subst hlim
  simp

/-- C4: `validate_pick` runs its checks in source order — turn (skipped in
`manual_tracker` mode), existence, availability, position presence,
position/FLEX/BENCH capacity — short-circuiting with the error of the first
failing check, and returns `(true, none)` exactly when every check passes.
The embedding is a pure function of the state, so the source's
never-mutates guarantee is inherent. The hypotheses restrict to the two
documented draft modes and to in-range team ids (an out-of-range id makes
the source raise `IndexError` at the team fetch instead of returning). -/
theorem validate_pick_check_order (s : DraftState) (tid : Nat) (pid : String)
    (hmode : s.league_config.draft_mode = "simulation" ∨
      s.league_config.draft_mode = "manual_tracker")
    (_htid : tid < s.teams.length) :
    ((s.league_config.draft_mode = "simulation" → tid ≠ s.current_team_id →
      DraftRules.validate_pick s tid pid = (false, some (turnMsg tid s.current_team_id))) ∧
     (∀ _ : s.league_config.draft_mode = "manual_tracker" ∨ tid = s.current_team_id,
      s.get_player_info pid = none →
      DraftRules.validate_pick s tid pid = (false, some (notFoundMsg pid))) ∧
     (∀ _ : s.league_config.draft_mode = "manual_tracker" ∨ tid = s.current_team_id,
      ∀ info, s.get_player_info pid = some info → pid ∉ s.available_players →
      DraftRules.validate_pick s tid pid =
        (false, some (alreadyDraftedMsg (info.display_name pid)))) ∧
     (∀ _ : s.league_config.draft_mode = "manual_tracker" ∨ tid = s.current_team_id,
      ∀ info, s.get_player_info pid = some info → pid ∈ s.available_players →
      info.position = "" →
      DraftRules.validate_pick s tid pid = (false, some (noPositionMsg pid))) ∧
     (∀ _ : s.league_config.draft_mode = "manual_tracker" ∨ tid = s.current_team_id,
      ∀ info, s.get_player_info pid = some info → pid ∈ s.available_players →
      info.position ≠ "" →
      (DraftRules.validate_position_limit s (s.get_team tid) info.position).1 = false →
      DraftRules.validate_pick s tid pid =
        (false, (DraftRules.validate_position_limit s (s.get_team tid) info.position).2)) ∧
     (DraftRules.validate_pick s tid pid = (true, none) ↔
      ((s.league_config.draft_mode = "manual_tracker" ∨ tid = s.current_team_id) ∧
       ∃ info, s.get_player_info pid = some info ∧ pid ∈ s.available_players ∧
         info.position ≠ "" ∧
         (DraftRules.validate_position_limit s (s.get_team tid) info.position).1 = true))) := by
  refine ⟨fun h1 h2 => validate_pick_turn_fail h1 h2,
    fun hp h => validate_pick_notfound hp h,
    fun hp info h1 h2 => validate_pick_drafted hp h1 h2,
    fun hp info h1 h2 h3 => validate_pick_noposition hp h1 h2 h3,
    fun hp info h1 h2 h3 h4 => validate_pick_limit_fail hp h1 h2 h3 h4, ?_⟩
  constructor
  · intro hV
    by_cases hpass : s.league_config.draft_mode = "manual_tracker" ∨ tid = s.current_team_id
    · refine ⟨hpass, ?_⟩
      rcases hinfo : s.get_player_info pid with _ | info
      · rw [validate_pick_notfound hpass hinfo] at hV; exact absurd hV (by simp)
      · by_cases hmem : pid ∈ s.available_players
        · by_cases hempty : info.position = ""
          · rw [validate_pick_noposition hpass hinfo hmem hempty] at hV
            exact absurd hV (by simp)
          · rcases hlim : (DraftRules.validate_position_limit s (s.get_team tid)
                info.position).1 with _ | _
            · rw [validate_pick_limit_fail hpass hinfo hmem hempty hlim] at hV
              exact absurd hV (by simp)
            · exact ⟨info, rfl, hmem, hempty, hlim⟩
        · rw [validate_pick_drafted hpass hinfo hmem] at hV; exact absurd hV (by simp)
    · have h1 : s.league_config.draft_mode = "simulation" := by
        rcases hmode with h | h
        · exact h
        · exact absurd (Or.inl h) hpass
      have h2 : tid ≠ s.current_team_id := fun h => hpass (Or.inr h)
      rw [validate_pick_turn_fail h1 h2] at hV
      exact absurd hV (by simp)
  · rintro ⟨hpass, info, hinfo, hmem, hempty, hlim⟩
    exact validate_pick_all_pass hpass hinfo hmem hempty hlim

/-- C4 witness: at the fresh demo draft it is team 0's turn, so a pick
proposed by team 1 fails the turn check with the turn error. -/
theorem validate_pick_check_order_witness :
    DraftRules.validate_pick demoState 1 "rb1" = (false, some (turnMsg 1 0)) :=
  (validate_pick_check_order demoState 1 "rb1" (by left; rfl) (by decide)).1
    (by rfl) (by decide)

/-- Erasing a freshly appended element restores the list when the element
was not already present. -/
lemma erase_append_singleton {l : List String} {v : String} (h : v ∉ l) :
    (l ++ [v]).erase v = l := by
  rw [List.erase_append_right _ h]
  simp

/-- Erasing a freshly appended roster entry restores the roster dict,
provided the slot key exists and did not already hold the player. -/
lemma alEraseVal_alAppendVal {m : List (String × List String)} {k v : String}
    (hkey : (List.lookup k m).isSome)
    (hv : v ∉ alGetList m k) :
    alEraseVal (alAppendVal m k v) k v = m := by
  induction m with
  | nil => simp [List.lookup] at hkey
  | cons hd tl ih =>
    obtain ⟨k0, l0⟩ := hd
    by_cases hk : k0 = k
    · subst hk
      have hv0 : v ∉ l0 := by
        simpa [alGetList, List.lookup] using hv
      simp [alAppendVal, alEraseVal, erase_append_singleton hv0]
    · have hk2 : (k == k0) = false := by
        simp [Ne.symm hk]
      have hkey2 : (List.lookup k tl).isSome := by
        simpa [List.lookup, hk2] using hkey
      have hv2 : v ∉ alGetList tl k := by
        simpa [alGetList, List.lookup, hk2] using hv
      simp [alAppendVal, alEraseVal, hk, ih hkey2 hv2]

/-- `remove_player` after `add_player` restores the team exactly, under the
preconditions that hold in the controller's rollback scenario. -/
lemma add_remove_player {t : TeamRoster} {pid slot : String}
    (hkey : (List.lookup slot t.roster).isSome)
    (hslot : pid ∉ alGetList t.roster slot)
    (hpicks : pid ∉ t.picks) :
    (t.add_player pid slot).remove_player pid slot = t := by
  unfold TeamRoster.add_player TeamRoster.remove_player
  simp only
  rw [alEraseVal_alAppendVal hkey hslot, erase_append_singleton hpicks]

/-- Writing back the element already at an index is the identity. -/
lemma list_set_getD_self {α : Type} [Inhabited α] :
    ∀ (l : List α) (i : Nat), i < l.length → l.set i (l.getD i default) = l
  | [], i, h => by simp at h
  | _ :: _, 0, _ => rfl
  | a :: t, i + 1, h => by
    simp only [List.set, List.getD_cons_succ]
    rw [list_set_getD_self t i (by simpa using h)]

/-- Strings whose final characters differ are different. -/
lemma string_ne_of_getLast {a b : String} (h : a.data.getLast? ≠ b.data.getLast?) :
    a ≠ b :=
  fun e => h (by rw [e])

/-- Appending on the right fixes the final character. -/
lemma getLast_append_right (a b : String) (c : Char) (h : b.data.getLast? = some c) :
    (a ++ b).data.getLast? = some c := by
  rw [String.data_append, List.getLast?_append, h, Option.or_some]

/-- Final character of the pool-inconsistency message. -/
lemma getLast_notInPoolMsg (q : String) : (notInPoolMsg q).data.getLast? = some 'l' := by
  unfold notInPoolMsg; exact getLast_append_right _ _ _ (by decide)

/-- Final character of the turn-check message. -/
lemma getLast_turnMsg (t c : Nat) : (turnMsg t c).data.getLast? = some ')' := by
  unfold turnMsg; exact getLast_append_right _ _ _ (by decide)

/-- Final character of the not-found message. -/
lemma getLast_notFoundMsg (p : String) : (notFoundMsg p).data.getLast? = some 'e' := by
  unfold notFoundMsg; exact getLast_append_right _ _ _ (by decide)

/-- Final character of the already-drafted message. -/
lemma getLast_alreadyDraftedMsg (n : String) :
    (alreadyDraftedMsg n).data.getLast? = some 'd' := by
  unfold alreadyDraftedMsg; exact getLast_append_right _ _ _ (by decide)

/-- Final character of the no-position message. -/
lemma getLast_noPositionMsg (p : String) :
    (noPositionMsg p).data.getLast? = some 'd' := by
  unfold noPositionMsg; exact getLast_append_right _ _ _ (by decide)

/-- Final character of the position-full message. -/
lemma getLast_positionFullMsg (pos : String) (a b c d : Nat) :
    (positionFullMsg pos a b c d).data.getLast? = some ')' := by
  unfold positionFullMsg; exact getLast_append_right _ _ _ (by decide)

/-- C8: when the defensive availability re-check fails mid-pick (the player
id absent from the pool at the removal step), the mutation phase rolls the
partial mutations back — the caller-observed state equals the pre-call
state exactly — and raises the pool-inconsistency message, which differs
from every pick-legality message (wrong turn, not found, already drafted,
missing position, slots full, draft complete) at every parameter value, so
a caller can always tell the invariant violation apart. -/
theorem pool_inconsistency_rollback_distinct_error
    (s : DraftState) (tid : Nat) (pid now : String) (info : Player) (slot : String)
    (htid : tid < s.teams.length)
    (hinfo : s.get_player_info pid = some info)
    (hslotdef : slot =
      RosterValidator.determine_roster_slot s.league_config (s.get_team tid) info.position)
    (hkey : (List.lookup slot (s.get_team tid).roster).isSome)
    (hslot : pid ∉ alGetList (s.get_team tid).roster slot)
    (hpicks : pid ∉ (s.get_team tid).picks)
    (hna : pid ∉ s.available_players) :
    DraftController.pick_mutation s tid pid now = (.error (notInPoolMsg pid), s) ∧
    (∀ q : String, ∀ t c : Nat, notInPoolMsg q ≠ turnMsg t c) ∧
    (∀ q p : String, notInPoolMsg q ≠ notFoundMsg p) ∧
    (∀ q n : String, notInPoolMsg q ≠ alreadyDraftedMsg n) ∧
    (∀ q p : String, notInPoolMsg q ≠ noPositionMsg p) ∧
    (∀ q pos : String, ∀ a b c d : Nat, notInPoolMsg q ≠ positionFullMsg pos a b c d) ∧
    (∀ q : String, notInPoolMsg q ≠ draftCompleteMsg) := by
  refine ⟨?_, fun q t c => string_ne_of_getLast (by
      rw [getLast_notInPoolMsg, getLast_turnMsg]; decide),
    fun q p => string_ne_of_getLast (by
      rw [getLast_notInPoolMsg, getLast_notFoundMsg]; decide),
    fun q n => string_ne_of_getLast (by
      rw [getLast_notInPoolMsg, getLast_alreadyDraftedMsg]; decide),
    fun q p => string_ne_of_getLast (by
      rw [getLast_notInPoolMsg, getLast_noPositionMsg]; decide),
    fun q pos a b c d => string_ne_of_getLast (by
      rw [getLast_notInPoolMsg, getLast_positionFullMsg]; decide),
    fun q => string_ne_of_getLast (by
      rw [getLast_notInPoolMsg]; decide)⟩
  subst hslotdef
  have hc : s.available_players.contains pid = false := by
    rcases h : s.available_players.contains pid with _ | _
    · rfl
    · exact absurd ((is_player_available_iff s pid).1 h) hna
  unfold DraftController.pick_mutation
  simp only [hinfo, hc, Bool.false_eq_true, if_false]
  rw [List.set_set, add_remove_player hkey hslot hpicks, List.dropLast_concat]
  have hteams : s.teams.set tid (s.get_team tid) = s.teams := by
    unfold DraftState.get_team
    exact list_set_getD_self s.teams tid htid
  rw [hteams]

/-- C8 witness: at the corrupted demo state the mutation phase rolls back
and surfaces the pool-inconsistency error. -/
theorem pool_inconsistency_rollback_distinct_error_witness :
    DraftController.pick_mutation demoCorrupt 0 "rb1" "t1" =
      (.error (notInPoolMsg "rb1"), demoCorrupt) :=
  (pool_inconsistency_rollback_distinct_error demoCorrupt 0 "rb1" "t1"
    (demoPlayer "rb1" "RB" 20) "RB" (by decide) (by decide) (by decide)
    (by decide) (by decide) (by decide) (by decide)).1

/-- C3: `check_if_complete` reports completion exactly when the current
pick number exceeds `league_size * total_rounds` (total rounds being the
sum of all slot capacities — the source raises on an empty capacity map,
hence the nonemptiness hypothesis); the completion timestamp is written by
the first check that observes the condition, is left `none` by checks that
do not, and is never overwritten once a (nonempty, as `isoformat()`
guarantees) timestamp is stored; and a completed draft rejects every
further `make_pick` unchanged, making `inProgress → complete`
one-directional across controller operations. -/
theorem completion_detection_and_latching :
    (∀ (s : DraftState) (now : String), s.league_config.roster_slots ≠ [] →
      (s.check_if_complete now).is_complete =
        decide (s.league_config.league_size * s.league_config.total_rounds < s.current_pick)) ∧
    (∀ (s : DraftState) (now : String), s.completed_at = none →
      s.league_config.league_size * s.league_config.total_rounds < s.current_pick →
      (s.check_if_complete now).completed_at = some now) ∧
    (∀ (s : DraftState) (now : String), s.completed_at = none →
      ¬ s.league_config.league_size * s.league_config.total_rounds < s.current_pick →
      (s.check_if_complete now).completed_at = none) ∧
    (∀ (s : DraftState) (now t : String), s.completed_at = some t → t ≠ "" →
      (s.check_if_complete now).completed_at = some t) ∧
    (∀ (s : DraftState) (tid : Nat) (pid now : String), s.is_complete = true →
      DraftController.make_pick s tid pid now = (.error draftCompleteMsg, s)) := by
  refine ⟨?_, ?_, ?_, ?_, ?_⟩
  · intro s now _
    simp only [DraftState.check_if_complete]
    split <;> rfl
  · intro s now hnone hcond
    simp [DraftState.check_if_complete, hnone, hcond]
  · intro s now hnone hcond
    simp [DraftState.check_if_complete, hnone, hcond]
  · intro s now t hsome ht
    simp [DraftState.check_if_complete, hsome, ht]
  · intro s tid pid now h
    simp [DraftController.make_pick, h]

/-- C3 witness: a completed draft rejects a further pick unchanged. -/
theorem completion_detection_and_latching_witness :
    DraftController.make_pick demoComplete 0 "rb1" "t9" =
      (.error draftCompleteMsg, demoComplete) :=
  completion_detection_and_latching.2.2.2.2 demoComplete 0 "rb1" "t9" rfl

/-- A positive validation implies the player exists and is available. -/
lemma validate_pick_fst_true {s : DraftState} {tid : Nat} {pid : String}
    (h : (DraftRules.validate_pick s tid pid).1 = true) :
    (s.get_player_info pid).isSome ∧ s.available_players.contains pid = true := by
  unfold DraftRules.validate_pick at h
  split at h
  · simp at h
  · split at h
    · simp at h
    · rename_i info heq
      split at h
      · simp at h
      · rename_i hav
        constructor
        · rw [heq]; rfl
        · have : s.is_player_available pid = true := by
            rcases hb : s.is_player_available pid with _ | _
            · exact absurd hb hav
            · rfl
          exact this

/-- Any error raised by `make_pick` leaves the observed state equal to the
pre-call state: the early errors occur before any mutation, and the
rollback branch is unreachable once validation has passed (validation
guarantees pool membership, and nothing changes the pool in between). -/
lemma make_pick_error_state {s : DraftState} {tid : Nat} {pid now : String}
    {e : String} {s2 : DraftState}
    (h : DraftController.make_pick s tid pid now = (.error e, s2)) : s2 = s := by
  unfold DraftController.make_pick at h
  split at h
  · simp only [Prod.mk.injEq] at h
    exact h.2.symm
  · split at h
    · rename_i e' heq
      simp only [Prod.mk.injEq] at h
      exact h.2.symm
    · rename_i b heq
      have hv : (DraftRules.validate_pick s tid pid).1 = true := by rw [heq]
      obtain ⟨hsome, hcont⟩ := validate_pick_fst_true hv
      split at h
      · rename_i e2 s4 hm
        unfold DraftController.pick_mutation at hm
        split at hm
        · rename_i hnone
          rw [hnone] at hsome
          simp at hsome
        · rename_i info heq2
          have hmem : pid ∈ s.available_players := (is_player_available_iff s pid).1 hcont
          simp [hmem] at hm
      · rename_i pk s3 hm
        simp at h

/-- Successful-`make_pick` inversion: the guard and validation passed, the
player exists and was available, the returned `Pick` is the one built from
the pre-call cursor, and the new state is the mutated state pushed through
turn advancement and the completion check. -/
lemma make_pick_ok_spec {s : DraftState} {tid : Nat} {pid now : String}
    {pk : Pick} {s' : DraftState}
    (h : DraftController.make_pick s tid pid now = (.ok pk, s')) :
    s.is_complete = false ∧
    (DraftRules.validate_pick s tid pid).1 = true ∧
    ∃ info, s.get_player_info pid = some info ∧
      s.available_players.contains pid = true ∧
      pk = Pick.create s.current_pick s.current_round tid pid now
        (some (RosterValidator.determine_roster_slot s.league_config (s.get_team tid) info.position)) ∧
      s' = (({ s with
          teams := s.teams.set tid ((s.get_team tid).add_player pid
            (RosterValidator.determine_roster_slot s.league_config (s.get_team tid) info.position)),
          all_picks := s.all_picks ++ [pk],
          available_players := s.available_players.erase pid } : DraftState
          ).advance_to_next_pick).check_if_complete now := by
  unfold DraftController.make_pick at h
  split at h
  · simp at h
  · rename_i hnc
    split at h
    · simp at h
    · rename_i b heq
      have hv : (DraftRules.validate_pick s tid pid).1 = true := by rw [heq]
      obtain ⟨hsome, hcont⟩ := validate_pick_fst_true hv
      have hmem : pid ∈ s.available_players := (is_player_available_iff s pid).1 hcont
      refine ⟨by simpa using hnc, hv, ?_⟩
      split at h
      · simp at h
      · rename_i pk0 s3 hm
        unfold DraftController.pick_mutation at hm
        split at hm
        · rename_i hnone
          rw [hnone] at hsome
          simp at hsome
        · rename_i info heq2
          rw [if_pos hcont] at hm
          simp only [Prod.mk.injEq, Except.ok.injEq] at hm
          simp only [Prod.mk.injEq, Except.ok.injEq] at h
          obtain ⟨hpk0, hs3⟩ := hm
          obtain ⟨hpk, hs5⟩ := h
          subst_vars
          exact ⟨info, heq2, hcont, rfl, rfl⟩

/-- Turn advancement touches only the cursor fields. -/
lemma advance_preserves (x : DraftState) :
    (x.advance_to_next_pick).teams = x.teams ∧
    (x.advance_to_next_pick).all_picks = x.all_picks ∧
    (x.advance_to_next_pick).available_players = x.available_players ∧
    (x.advance_to_next_pick).player_data = x.player_data ∧
    (x.advance_to_next_pick).league_config = x.league_config ∧
    (x.advance_to_next_pick).is_complete = x.is_complete ∧
    (x.advance_to_next_pick).completed_at = x.completed_at := by
  simp only [DraftState.advance_to_next_pick]
  split
  · exact ⟨rfl, rfl, rfl, rfl, rfl, rfl, rfl⟩
  · split <;> exact ⟨rfl, rfl, rfl, rfl, rfl, rfl, rfl⟩

/-- The completion check touches only the completion fields. -/
lemma check_preserves (x : DraftState) (now : String) :
    (x.check_if_complete now).teams = x.teams ∧
    (x.check_if_complete now).all_picks = x.all_picks ∧
    (x.check_if_complete now).available_players = x.available_players ∧
    (x.check_if_complete now).player_data = x.player_data ∧
    (x.check_if_complete now).league_config = x.league_config ∧
    (x.check_if_complete now).current_pick = x.current_pick ∧
    (x.check_if_complete now).current_round = x.current_round ∧
    (x.check_if_complete now).current_team_id = x.current_team_id ∧
    (x.check_if_complete now).draft_order = x.draft_order := by
  simp only [DraftState.check_if_complete]
  split <;> exact ⟨rfl, rfl, rfl, rfl, rfl, rfl, rfl, rfl, rfl⟩

/-- The cursor fields written by a (non-complete) turn advancement. -/
lemma advance_cursor (x : DraftState) (hnc : x.is_complete = false) :
    (x.advance_to_next_pick).current_pick = x.current_pick + 1 ∧
    (x.advance_to_next_pick).current_round =
      (x.current_pick + 1 - 1) / x.league_config.league_size + 1 ∧
    (x.league_config.draft_type = "snake" →
      (x.advance_to_next_pick).current_team_id = x.draft_order.getD
        (if ((x.current_pick + 1 - 1) / x.league_config.league_size + 1) % 2 = 1
         then (x.current_pick + 1 - 1) % x.league_config.league_size
         else x.league_config.league_size - 1 -
           (x.current_pick + 1 - 1) % x.league_config.league_size) 0) ∧
    (x.league_config.draft_type ≠ "snake" →
      (x.advance_to_next_pick).current_team_id = x.draft_order.getD
        ((x.current_pick + 1 - 1) % x.league_config.league_size) 0) := by
  simp only [DraftState.advance_to_next_pick]
  rw [if_neg (by simp [hnc])]
  by_cases hdt : x.league_config.draft_type = "snake"
  · rw [if_pos hdt]
    exact ⟨rfl, rfl, fun _ => rfl, fun hc => absurd hdt hc⟩
  · rw [if_neg hdt]
    exact ⟨rfl, rfl, fun hc => absurd hc hdt, fun _ => rfl⟩

/-- Writing an element at an in-range index makes `getD` return it. -/
lemma list_getD_set_self {α : Type} [Inhabited α] :
    ∀ (l : List α) (i : Nat) (a : α), i < l.length → (l.set i a).getD i default = a
  | [], i, _, h => by simp at h
  | _ :: _, 0, _, _ => rfl
  | _ :: t, i + 1, a, h => by
    simp only [List.set, List.getD_cons_succ]
    exact list_getD_set_self t i a (by simpa using h)

/-- C1: `make_pick` is atomic — every error path returns the caller the
exact pre-call state (rosters, pick lists, global log, cursor, pool all
unchanged), and exactly on success all five mutations are visible: the
player appended to one roster slot list and to the team's pick list, the
`Pick` appended to the global log, the player removed from the pool, and
the pick number advanced. -/
theorem make_pick_atomic (s : DraftState) (tid : Nat) (pid now : String) :
    (∀ e : String, (DraftController.make_pick s tid pid now).1 = Except.error e →
      (DraftController.make_pick s tid pid now).2 = s) ∧
    (∀ pk : Pick, (DraftController.make_pick s tid pid now).1 = Except.ok pk →
      tid < s.teams.length →
      ∃ slot : String,
        ((DraftController.make_pick s tid pid now).2.get_team tid).roster =
          alAppendVal (s.get_team tid).roster slot pid ∧
        ((DraftController.make_pick s tid pid now).2.get_team tid).picks =
          (s.get_team tid).picks ++ [pid] ∧
        (DraftController.make_pick s tid pid now).2.all_picks = s.all_picks ++ [pk] ∧
        (DraftController.make_pick s tid pid now).2.available_players =
          s.available_players.erase pid ∧
        (DraftController.make_pick s tid pid now).2.current_pick = s.current_pick + 1) := by
  rcases hmk : DraftController.make_pick s tid pid now with ⟨r, s2⟩
  constructor
  · intro e he
    simp only at he ⊢
    subst he
    exact make_pick_error_state hmk
  · intro pk hr htid
    simp only at hr ⊢
    subst hr
    obtain ⟨hnc, hv, info, hinfo, hcont, hpk, hs2⟩ := make_pick_ok_spec hmk
    refine ⟨RosterValidator.determine_roster_slot s.league_config (s.get_team tid) info.position,
      ?_, ?_, ?_, ?_, ?_⟩
    all_goals rw [hs2]
    · rw [DraftState.get_team, (check_preserves _ _).1, (advance_preserves _).1]
      rw [show ({ s with
          teams := s.teams.set tid ((s.get_team tid).add_player pid
            (RosterValidator.determine_roster_slot s.league_config (s.get_team tid) info.position)),
          all_picks := s.all_picks ++ [pk],
          available_players := s.available_players.erase pid } : DraftState).teams =
          s.teams.set tid ((s.get_team tid).add_player pid
            (RosterValidator.determine_roster_slot s.league_config (s.get_team tid) info.position))
        from rfl]
      rw [list_getD_set_self _ _ _ (by simpa using htid)]
      rfl
    · rw [DraftState.get_team, (check_preserves _ _).1, (advance_preserves _).1]
      rw [show ({ s with
          teams := s.teams.set tid ((s.get_team tid).add_player pid
            (RosterValidator.determine_roster_slot s.league_config (s.get_team tid) info.position)),
          all_picks := s.all_picks ++ [pk],
          available_players := s.available_players.erase pid } : DraftState).teams =
          s.teams.set tid ((s.get_team tid).add_player pid
            (RosterValidator.determine_roster_slot s.league_config (s.get_team tid) info.position))
        from rfl]
      rw [list_getD_set_self _ _ _ (by simpa using htid)]
      rfl
    · rw [(check_preserves _ _).2.1, (advance_preserves _).2.1]
    · rw [(check_preserves _ _).2.2.1, (advance_preserves _).2.2.1]
    · rw [(check_preserves _ _).2.2.2.2.2.1, (advance_cursor _ (by exact hnc)).1]

/-- C1 witness: the first demo pick succeeds with all five mutations
visible. -/
theorem make_pick_atomic_witness :
    ∃ slot : String,
      ((DraftController.make_pick demoState 0 "rb1" "t1").2.get_team 0).roster =
        alAppendVal (demoState.get_team 0).roster slot "rb1" ∧
      ((DraftController.make_pick demoState 0 "rb1" "t1").2.get_team 0).picks =
        (demoState.get_team 0).picks ++ ["rb1"] ∧
      (DraftController.make_pick demoState 0 "rb1" "t1").2.all_picks =
        demoState.all_picks ++ [(DraftController.make_pick demoState 0 "rb1" "t1").1.toOption.getD default] ∧
      (DraftController.make_pick demoState 0 "rb1" "t1").2.available_players =
        demoState.available_players.erase "rb1" ∧
      (DraftController.make_pick demoState 0 "rb1" "t1").2.current_pick =
        demoState.current_pick + 1 :=
  (make_pick_atomic demoState 0 "rb1" "t1").2
    ((DraftController.make_pick demoState 0 "rb1" "t1").1.toOption.getD default)
    (by rfl) (by decide)

/-- C2: after every successful pick the pick number increments by one, the
round is `(pickNumber - 1) / teamCount + 1`, and the team on the clock is
`draftOrder[(pickNumber - 1) % teamCount]` in odd rounds and
`draftOrder[teamCount - 1 - (pickNumber - 1) % teamCount]` in even rounds
for the snake draft type (always forward for linear); consequently the
`(j+1)`-th pick of round `r` sits at position-in-round `j` of round `r`, so
round `r` runs `draftOrder` forward when `r` is odd and reversed when even. -/
theorem make_pick_snake_advancement :
    (∀ (s : DraftState) (tid : Nat) (pid now : String) (pk : Pick) (s2 : DraftState),
      DraftController.make_pick s tid pid now = (.ok pk, s2) →
      0 < s.league_config.league_size →
      s2.current_pick = s.current_pick + 1 ∧
      s2.current_round = (s2.current_pick - 1) / s.league_config.league_size + 1 ∧
      (s.league_config.draft_type = "snake" →
        s2.current_team_id = s.draft_order.getD
          (if s2.current_round % 2 = 1
           then (s2.current_pick - 1) % s.league_config.league_size
           else s.league_config.league_size - 1 -
             (s2.current_pick - 1) % s.league_config.league_size) 0) ∧
      (s.league_config.draft_type = "linear" →
        s2.current_team_id = s.draft_order.getD
          ((s2.current_pick - 1) % s.league_config.league_size) 0)) ∧
    (∀ n r j : Nat, 0 < n → 0 < r → j < n →
      ((r - 1) * n + j + 1 - 1) / n + 1 = r ∧
      ((r - 1) * n + j + 1 - 1) % n = j) := by
  constructor
  · intro s tid pid now pk s2 hmk hn
    obtain ⟨hnc, hv, info, hinfo, hcont, hpk, hs2⟩ := make_pick_ok_spec hmk
    subst hs2
    have hcur := advance_cursor ({ s with
        teams := s.teams.set tid ((s.get_team tid).add_player pid
          (RosterValidator.determine_roster_slot s.league_config (s.get_team tid) info.position)),
        all_picks := s.all_picks ++ [pk],
        available_players := s.available_players.erase pid } : DraftState) hnc
    have hchk := check_preserves (({ s with
        teams := s.teams.set tid ((s.get_team tid).add_player pid
          (RosterValidator.determine_roster_slot s.league_config (s.get_team tid) info.position)),
        all_picks := s.all_picks ++ [pk],
        available_players := s.available_players.erase pid } : DraftState).advance_to_next_pick) now
    refine ⟨?_, ?_, ?_, ?_⟩
    · rw [hchk.2.2.2.2.2.1, hcur.1]
    · rw [hchk.2.2.2.2.2.2.1, hchk.2.2.2.2.2.1, hcur.2.1, hcur.1]
    · intro hdt
      rw [hchk.2.2.2.2.2.2.2.1, hchk.2.2.2.2.2.2.1, hchk.2.2.2.2.2.1,
        hcur.2.2.1 hdt, hcur.2.1, hcur.1]
    · intro hdt
      rw [hchk.2.2.2.2.2.2.2.1, hchk.2.2.2.2.2.1,
        hcur.2.2.2 (by rw [show ({ s with
          teams := s.teams.set tid ((s.get_team tid).add_player pid
            (RosterValidator.determine_roster_slot s.league_config (s.get_team tid) info.position)),
          all_picks := s.all_picks ++ [pk],
          available_players := s.available_players.erase pid } : DraftState).league_config.draft_type =
            s.league_config.draft_type from rfl, hdt]; decide), hcur.1]
  · intro n r j hn hr hj
    have hsub : (r - 1) * n + j + 1 - 1 = n * (r - 1) + j := by
      rw [Nat.mul_comm]; omega
    constructor
    · rw [hsub, Nat.mul_add_div hn, Nat.div_eq_of_lt hj]
      omega
    · rw [hsub, Nat.mul_add_mod, Nat.mod_eq_of_lt hj]

/-- C2 witness: the second demo pick (pick 2, round 1 of a 2-team snake
draft) puts team `draftOrder[1] = 1` on the clock. -/
theorem make_pick_snake_advancement_witness :
    (DraftController.make_pick demoState 0 "rb1" "t1").2.current_pick =
      demoState.current_pick + 1 :=
  (make_pick_snake_advancement.1 demoState 0 "rb1" "t1"
    ((DraftController.make_pick demoState 0 "rb1" "t1").1.toOption.getD default)
    (DraftController.make_pick demoState 0 "rb1" "t1").2 (by rfl) (by decide)).1

/-- Key membership characterizes association-list lookup success. -/
lemma lookup_isSome_iff_mem_keys (pd : List (String × Player)) (pid : String) :
    (List.lookup pid pd).isSome ↔ pid ∈ pd.map Prod.fst := by
  induction pd with
  | nil => simp [List.lookup]
  | cons hd tl ih =>
    obtain ⟨k, v⟩ := hd
    rcases hbeq : pid == k with _ | _
    · have hk : pid ≠ k := by simpa using hbeq
      simp only [List.lookup, hbeq, List.map_cons, List.mem_cons]
      rw [ih]
      constructor
      · exact Or.inr
      · rintro (h | h)
        · exact absurd h hk
        · exact h
    · have hk : pid = k := by simpa using hbeq
      simp [List.lookup, hbeq, hk]

/-- Appending a player to one slot of a roster dict adds exactly that one
occurrence to the flattened contents. -/
lemma alAppendVal_flatten_perm (m : List (String × List String)) (k v : String) :
    ((alAppendVal m k v).map Prod.snd).flatten.Perm (v :: (m.map Prod.snd).flatten) := by
  induction m with
  | nil => simp [alAppendVal]
  | cons hd tl ih =>
    obtain ⟨k0, l0⟩ := hd
    by_cases hk : k0 = k
    · subst hk
      simp only [alAppendVal, eq_self_iff_true, if_true, List.map_cons, List.flatten_cons]
      rw [List.append_assoc]
      exact List.perm_middle
    · simp only [alAppendVal, if_neg hk, List.map_cons, List.flatten_cons]
      exact (ih.append_left l0).trans List.perm_middle

/-- `add_player` adds exactly one occurrence to a team's slotted contents. -/
lemma slotted_add_player (t : TeamRoster) (pid slot : String) :
    (t.add_player pid slot).slotted_ids.Perm (pid :: t.slotted_ids) :=
  alAppendVal_flatten_perm t.roster slot pid

/-- Replacing team `i` by that team plus one slotted player adds exactly
one occurrence to the league-wide slotted contents. -/
lemma rostered_set_add_perm :
    ∀ (ts : List TeamRoster) (i : Nat) (pid slot : String), i < ts.length →
      ((ts.set i ((ts.getD i default).add_player pid slot)).map
        TeamRoster.slotted_ids).flatten.Perm
        (pid :: (ts.map TeamRoster.slotted_ids).flatten)
  | [], i, _, _, h => by simp at h
  | t :: ts, 0, pid, slot, _ => by
    simp only [List.set, List.getD_cons_zero, List.map_cons, List.flatten_cons]
    exact (slotted_add_player t pid slot).append_right _
  | t :: ts, i + 1, pid, slot, h => by
    simp only [List.set, List.getD_cons_succ, List.map_cons, List.flatten_cons]
    exact ((rostered_set_add_perm ts i pid slot (by simpa using h)).append_left
      t.slotted_ids).trans List.perm_middle

/-- Seeded slot dicts hold no players. -/
lemma flatten_map_mk_nil (sl : List (String × Nat)) :
    ((sl.map fun q => (q.1, ([] : List String))).map Prod.snd).flatten = [] := by
  induction sl with
  | nil => rfl
  | cons a t ih => simp [ih]

/-- All teams produced by the factory have empty slotted contents. -/
lemma flatten_map_slotted_mk (l : List (Nat × String)) (cfg : LeagueConfig) (hid : Nat) :
    ((l.map fun p =>
      ({ team_id := p.1
         team_name := p.2
         is_human := p.1 = hid
         roster := cfg.roster_slots.map fun q => (q.1, [])
         picks := [] } : TeamRoster)).map TeamRoster.slotted_ids).flatten = [] := by
  induction l with
  | nil => rfl
  | cons a t ih =>
    simpa [TeamRoster.slotted_ids, flatten_map_mk_nil] using ih

/-- Factory inversion: the fields of a freshly created draft that the
partition invariant reads. -/
lemma create_new_ok_spec {cfg : LeagueConfig} {names : List String} {hid : Nat}
    {pd : List (String × Player)} {did now : String} {s0 : DraftState}
    (h : DraftState.create_new cfg names hid pd did now = .ok s0) :
    s0.available_players = pd.map Prod.fst ∧ s0.player_data = pd ∧
    s0.rostered_ids = [] := by
  unfold DraftState.create_new at h
  split at h
  · simp at h
  · split at h
    · simp at h
    · simp only [Except.ok.injEq] at h
      subst h
      exact ⟨rfl, rfl, flatten_map_slotted_mk names.enum cfg hid⟩

/-- The partition invariant holds at every factory-created draft whose
catalog keys are distinct (they are Python dict keys). -/
lemma pool_partition_init {cfg : LeagueConfig} {names : List String} {hid : Nat}
    {pd : List (String × Player)} {did now : String} {s0 : DraftState}
    (hnodup : (pd.map Prod.fst).Nodup)
    (h : DraftState.create_new cfg names hid pd did now = .ok s0) :
    s0.PoolPartition ∧ s0.player_data = pd := by
  obtain ⟨hav, hpd, hros⟩ := create_new_ok_spec h
  refine ⟨⟨?_, ?_⟩, hpd⟩
  · intro pid hsome
    rw [hpd] at hsome
    rw [hav, hros]
    have hmem : pid ∈ pd.map Prod.fst := (lookup_isSome_iff_mem_keys pd pid).1 hsome
    rw [List.count_eq_one_of_mem hnodup hmem]
    rfl
  · intro pid hnone
    rw [hpd] at hnone
    rw [hav, hros]
    have hmem : pid ∉ pd.map Prod.fst := by
      rw [← lookup_isSome_iff_mem_keys pd pid, hnone]
      simp
    exact ⟨List.count_eq_zero_of_not_mem hmem, rfl⟩

/-- The cursor operations preserve the partition invariant. -/
lemma pool_partition_cursor_ops (x : DraftState) (now : String)
    (h : x.PoolPartition) :
    ((x.advance_to_next_pick).check_if_complete now).PoolPartition := by
  obtain ⟨h1, h2⟩ := h
  have e1 := ((check_preserves (x.advance_to_next_pick) now).2.2.1).trans
    (advance_preserves x).2.2.1
  have e3 := ((check_preserves (x.advance_to_next_pick) now).2.2.2.1).trans
    (advance_preserves x).2.2.2.1
  have e7 : ((x.advance_to_next_pick).check_if_complete now).rostered_ids =
      x.rostered_ids := by
    unfold DraftState.rostered_ids
    rw [(check_preserves (x.advance_to_next_pick) now).1, (advance_preserves x).1]
  constructor
  · intro q hq
    rw [e3] at hq
    rw [e1, e7]
    exact h1 q hq
  · intro q hq
    rw [e3] at hq
    rw [e1, e7]
    exact h2 q hq

/-- Cursor operations keep the catalog. -/
lemma cursor_ops_player_data (x : DraftState) (now : String) :
    ((x.advance_to_next_pick).check_if_complete now).player_data = x.player_data :=
  ((check_preserves (x.advance_to_next_pick) now).2.2.2.1).trans
    (advance_preserves x).2.2.2.1

/-- The three pick mutations move one catalog id from the pool into one
roster slot, preserving the partition invariant. -/
lemma pool_partition_mutated (t : DraftState) (tid : Nat) (pid slot : String)
    (pk : Pick) (hinv : t.PoolPartition) (htid : tid < t.teams.length)
    (hsome : (List.lookup pid t.player_data).isSome)
    (hmem : pid ∈ t.available_players) :
    ({ t with
      teams := t.teams.set tid ((t.get_team tid).add_player pid slot),
      all_picks := t.all_picks ++ [pk],
      available_players := t.available_players.erase pid } : DraftState).PoolPartition := by
  obtain ⟨h1, h2⟩ := hinv
  have hre : ∀ q : String,
      ({ t with
        teams := t.teams.set tid ((t.get_team tid).add_player pid slot),
        all_picks := t.all_picks ++ [pk],
        available_players := t.available_players.erase pid } : DraftState).rostered_ids.count q =
        (pid :: t.rostered_ids).count q := by
    intro q
    exact (rostered_set_add_perm t.teams tid pid slot htid).count_eq q
  constructor
  · intro q hq
    by_cases hqp : q = pid
    · subst hqp
      have old := h1 q hsome
      have hpos : 0 < t.available_players.count q := List.count_pos_iff.2 hmem
      have havail : t.available_players.count q = 1 ∧ t.rostered_ids.count q = 0 := by
        omega
      show (t.available_players.erase q).count q + _ = 1
      rw [List.count_erase_self, hre q, List.count_cons_self]
      omega
    · have old := h1 q hq
      show (t.available_players.erase pid).count q + _ = 1
      rw [List.count_erase_of_ne hqp, hre q, List.count_cons_of_ne hqp]
      exact old
  · intro q hq
    have hqp : q ≠ pid := by
      intro e
      subst e
      rw [hq] at hsome
      simp at hsome
    obtain ⟨ha, hr⟩ := h2 q hq
    refine ⟨?_, ?_⟩
    · show (t.available_players.erase pid).count q = 0
      rw [List.count_erase_of_ne hqp]
      exact ha
    · rw [hre q, List.count_cons_of_ne hqp]
      exact hr

/-- One `make_pick` step preserves the partition invariant and the catalog. -/
lemma pool_partition_step {t : DraftState} {tid : Nat} {pid now : String}
    (hinv : t.PoolPartition) (htid : tid < t.teams.length) :
    (DraftController.make_pick t tid pid now).2.PoolPartition ∧
    (DraftController.make_pick t tid pid now).2.player_data = t.player_data := by
  rcases hmk : DraftController.make_pick t tid pid now with ⟨r, t2⟩
  rcases r with e | pk
  · have := make_pick_error_state hmk
    subst this
    exact ⟨hinv, rfl⟩
  · obtain ⟨hnc, hv, info, hinfo, hcont, hpk, hs2⟩ := make_pick_ok_spec hmk
    subst hs2
    have hsome : (List.lookup pid t.player_data).isSome := by
      rw [show List.lookup pid t.player_data = t.get_player_info pid from rfl, hinfo]
      rfl
    have hmem : pid ∈ t.available_players := (is_player_available_iff t pid).1 hcont
    exact ⟨pool_partition_cursor_ops _ now
        (pool_partition_mutated t tid pid _ pk hinv htid hsome hmem),
      cursor_ops_player_data _ now⟩

/-- C10: for every draft produced by the factory (whose catalog keys are
distinct, being Python dict keys) and every sequence of `make_pick` calls,
each catalog player id occurs exactly once across the availability pool
and all teams' slot lists combined — so it is either available or slotted
on exactly one team, in exactly one slot list, never both and never twice —
and no id outside the catalog ever occurs in the pool or in any slot list. -/
theorem player_pool_partition_invariant
    (cfg : LeagueConfig) (names : List String) (hid : Nat)
    (pd : List (String × Player)) (did now : String) (s0 s : DraftState)
    (hnodup : (pd.map Prod.fst).Nodup)
    (hcreate : DraftState.create_new cfg names hid pd did now = .ok s0)
    (hreach : DraftReachable s0 s) :
    DraftState.PoolPartition s ∧ s.player_data = pd := by
  induction hreach with
  | refl => exact pool_partition_init hnodup hcreate
  | step tid pid now2 htid h ih =>
    obtain ⟨hinv, hpd⟩ := ih
    obtain ⟨hinv2, hpd2⟩ := pool_partition_step hinv htid
    exact ⟨hinv2, hpd2.trans hpd⟩

/-- C10 witness: the partition invariant holds after the first demo pick. -/
theorem player_pool_partition_invariant_witness :
    DraftState.PoolPartition (DraftController.make_pick demoState 0 "rb1" "t1").2 :=
  (player_pool_partition_invariant demoConfig ["A", "B"] 0 demoCatalog "d1" "t0"
    demoState (DraftController.make_pick demoState 0 "rb1" "t1").2 (by decide) (by rfl)
    (DraftReachable.step 0 "rb1" "t1" (by decide) (DraftReachable.refl demoState))).1

/-- The descending-by-base-VOR comparison is transitive. -/
lemma vorDescLE_trans (fmt : String) : ∀ a b c : Player,
    DynamicVORCalculator.vorDescLE fmt a b → DynamicVORCalculator.vorDescLE fmt b c →
    DynamicVORCalculator.vorDescLE fmt a c := by
  intro a b c hab hbc
  simp only [DynamicVORCalculator.vorDescLE, decide_eq_true_eq] at *
  exact le_trans hbc hab

/-- The descending-by-base-VOR comparison is total. -/
lemma vorDescLE_total (fmt : String) : ∀ a b : Player,
    DynamicVORCalculator.vorDescLE fmt a b || DynamicVORCalculator.vorDescLE fmt b a := by
  intro a b
  simp only [DynamicVORCalculator.vorDescLE, Bool.or_eq_true, decide_eq_true_eq]
  exact le_total _ _

/-- Ranks assigned from `r` upward are at least `r`. -/
lemma assignRanks_lookup_ge :
    ∀ {l : List Player} {r v : Nat} {id : String},
      List.lookup id (assignRanks r l) = some v → r ≤ v := by
  intro l
  induction l with
  | nil => intro r v id h; simp [assignRanks, List.lookup] at h
  | cons p t ih =>
    intro r v id h
    rcases hb : id == p.player_id with _ | _
    · simp only [assignRanks, List.lookup, hb] at h
      exact Nat.le_of_succ_le (ih h)
    · simp only [assignRanks, List.lookup, hb, Option.some.injEq] at h
      omega

/-- Every listed player receives a rank. -/
lemma assignRanks_lookup_mem :
    ∀ {l : List Player} {r : Nat} {p : Player}, p ∈ l →
      ∃ v, List.lookup p.player_id (assignRanks r l) = some v := by
  intro l
  induction l with
  | nil => intro r p h; simp at h
  | cons q t ih =>
    intro r p h
    rcases hb : p.player_id == q.player_id with _ | _
    · rcases List.mem_cons.1 h with rfl | hmem
      · simp at hb
      · obtain ⟨v, hv⟩ := ih hmem
        exact ⟨v, by simp only [assignRanks, List.lookup, hb]; exact hv⟩
    · exact ⟨r, by simp only [assignRanks, List.lookup, hb]⟩

/-- Unlisted ids receive no rank. -/
lemma assignRanks_lookup_none :
    ∀ {l : List Player} {r : Nat} {id : String}, id ∉ l.map Player.player_id →
      List.lookup id (assignRanks r l) = none := by
  intro l
  induction l with
  | nil => intro r id _; rfl
  | cons q t ih =>
    intro r id h
    have h1 : id ≠ q.player_id := by
      intro e; exact h (by simp [e])
    have h2 : id ∉ t.map Player.player_id := fun hm => h (by simp [hm])
    simp only [assignRanks, List.lookup, beq_eq_false_iff_ne.mpr h1]
    exact ih h2

/-- An in-order pair of id-distinct listed players receives increasing
ranks. -/
lemma assignRanks_pair :
    ∀ {l : List Player} {x y : Player} {r : Nat},
      [x, y].Sublist l → (l.map Player.player_id).Nodup →
      ∃ i j, List.lookup x.player_id (assignRanks r l) = some i ∧
        List.lookup y.player_id (assignRanks r l) = some j ∧ i < j := by
  intro l
  induction l with
  | nil => intro x y r h _; exact absurd h (by simp)
  | cons c t ih =>
    intro x y r h hnd
    rw [List.map_cons] at hnd
    have hhead : c.player_id ∉ t.map Player.player_id := (List.nodup_cons.1 hnd).1
    have hndt : (t.map Player.player_id).Nodup := (List.nodup_cons.1 hnd).2
    cases h with
    | cons _ h2 =>
      obtain ⟨i, j, hi, hj, hij⟩ := ih h2 hndt
      have hx : x ∈ t := (h2.subset (by simp))
      have hy : y ∈ t := (h2.subset (by simp))
      have hxid : x.player_id ≠ c.player_id := by
        intro e; exact hhead (e ▸ List.mem_map_of_mem Player.player_id hx)
      have hyid : y.player_id ≠ c.player_id := by
        intro e; exact hhead (e ▸ List.mem_map_of_mem Player.player_id hy)
      refine ⟨i, j, ?_, ?_, hij⟩
      · simp only [assignRanks, List.lookup, beq_eq_false_iff_ne.mpr hxid]
        exact hi
      · simp only [assignRanks, List.lookup, beq_eq_false_iff_ne.mpr hyid]
        exact hj
    | cons₂ _ h2 =>
      have hy : y ∈ t := h2.subset (by simp)
      have hyid : y.player_id ≠ c.player_id := by
        intro e
        exact hhead (e ▸ List.mem_map_of_mem Player.player_id hy)
      obtain ⟨j, hj⟩ := assignRanks_lookup_mem (r := r + 1) hy
      refine ⟨r, j, ?_, ?_, ?_⟩
      · simp [assignRanks, List.lookup]
      · simp only [assignRanks, List.lookup, beq_eq_false_iff_ne.mpr hyid]
        exact hj
      · exact assignRanks_lookup_ge hj

/-- Membership in the grouping fold. -/
lemma mem_keyOrder_aux (l : List Player) :
    ∀ (acc : List String) (x : String),
      (x ∈ l.foldl (fun acc pl =>
        if pl.position ∈ acc then acc else acc ++ [pl.position]) acc ↔
      x ∈ acc ∨ x ∈ l.map Player.position) := by
  induction l with
  | nil => intro acc x; simp
  | cons p t ih =>
    intro acc x
    rw [List.foldl_cons, ih]
    have hacc : (x ∈ (if p.position ∈ acc then acc else acc ++ [p.position])) ↔
        (x ∈ acc ∨ x = p.position) := by
      split
      · rename_i hin
        constructor
        · exact Or.inl
        · rintro (h | rfl)
          · exact h
          · exact hin
      · simp [List.mem_append]
    rw [hacc]
    simp only [List.map_cons, List.mem_cons]
    tauto

/-- A position occurring among the available players occurs in the group
ordering. -/
lemma mem_keyOrder {avail : List Player} {p : Player} (h : p ∈ avail) :
    p.position ∈ keyOrder avail := by
  unfold keyOrder
  rw [mem_keyOrder_aux]
  exact Or.inr (List.mem_map_of_mem Player.position h)

/-- Lookups miss every section whose key list omits the id. -/
lemma lookup_flatten_none (f : String → List (String × Nat)) (id : String) :
    ∀ (pl : List String), (∀ p2 ∈ pl, List.lookup id (f p2) = none) →
      List.lookup id ((pl.map f).flatten) = none := by
  intro pl
  induction pl with
  | nil => intro _; rfl
  | cons q rest ih =>
    intro h
    simp only [List.map_cons, List.flatten_cons, List.lookup_append]
    rw [h q (by simp), ih (fun p2 hp2 => h p2 (by simp [hp2]))]
    rfl

/-- A lookup over concatenated per-position sections resolves in the
section of the id's own position when all other sections omit the id. -/
lemma lookup_flatten_sections (f : String → List (String × Nat)) (id pos : String) :
    ∀ (posList : List String), pos ∈ posList →
      (∀ pos2, pos2 ≠ pos → List.lookup id (f pos2) = none) →
      List.lookup id ((posList.map f).flatten) = List.lookup id (f pos) := by
  intro posList
  induction posList with
  | nil => intro h _; simp at h
  | cons q rest ih =>
    intro hmem hnone
    simp only [List.map_cons, List.flatten_cons, List.lookup_append]
    by_cases hq : q = pos
    · rw [hq]
      rcases hv : List.lookup id (f pos) with _ | v
      · rw [Option.none_or]
        exact lookup_flatten_none f id rest (fun p2 hp2 => by
          by_cases hp : p2 = pos
          · rw [hp]; exact hv
          · exact hnone p2 hp)
      · rfl
    · have hrest : pos ∈ rest := by
        rcases List.mem_cons.1 hmem with h | h
        · exact absurd h.symm hq
        · exact h
      rw [hnone q hq, Option.none_or]
      exact ih hrest hnone

/-- The rank dict resolves each player's id inside the section of the
player's own position. -/
lemma compute_ranks_lookup (fmt : String) (avail : List Player)
    (hids : (avail.map Player.player_id).Nodup) (pos : String)
    {p : Player} (hpav : p ∈ avail) (hppos : p.position = pos) :
    List.lookup p.player_id (DynamicVORCalculator.compute_position_ranks fmt avail) =
      List.lookup p.player_id
        (assignRanks 1 ((avail.filter fun q => q.position == pos).mergeSort
          (DynamicVORCalculator.vorDescLE fmt))) := by
  unfold DynamicVORCalculator.compute_position_ranks
  apply lookup_flatten_sections
  · rw [← hppos]
    exact mem_keyOrder hpav
  · intro pos2 hne
    apply assignRanks_lookup_none
    intro hmem
    rw [List.mem_map] at hmem
    obtain ⟨q, hq, hid⟩ := hmem
    have hq2 : q ∈ avail.filter fun r => r.position == pos2 := by
      rwa [List.mem_mergeSort] at hq
    obtain ⟨hqa, hqpos⟩ := List.mem_filter.1 hq2
    have : q = p := List.inj_on_of_nodup_map hids hqa hpav hid
    subst this
    rw [hppos] at hqpos
    exact hne ((by simpa using hqpos : pos = pos2).symm)

/-- Mapping each listed player to its assigned rank yields the consecutive
range, when listed ids are distinct. -/
lemma map_lookup_assignRanks :
    ∀ (l : List Player) (r : Nat), (l.map Player.player_id).Nodup →
      (l.map fun p => (List.lookup p.player_id (assignRanks r l)).getD 0) =
        List.range' r l.length := by
  intro l
  induction l with
  | nil => intro r _; rfl
  | cons p t ih =>
    intro r hnd
    rw [List.map_cons] at hnd
    have hhead : p.player_id ∉ t.map Player.player_id := (List.nodup_cons.1 hnd).1
    have hndt : (t.map Player.player_id).Nodup := (List.nodup_cons.1 hnd).2
    rw [List.map_cons]
    have h1 : (List.lookup p.player_id (assignRanks r (p :: t))).getD 0 = r := by
      simp [assignRanks, List.lookup]
    have h2 : (t.map fun q =>
        (List.lookup q.player_id (assignRanks r (p :: t))).getD 0) =
        t.map fun q => (List.lookup q.player_id (assignRanks (r + 1) t)).getD 0 := by
      apply List.map_congr_left
      intro q hq
      have hne : q.player_id ≠ p.player_id := by
        intro e
        exact hhead (e ▸ List.mem_map_of_mem Player.player_id hq)
      simp only [assignRanks, List.lookup, beq_eq_false_iff_ne.mpr hne]
    rw [h1, h2, ih (r + 1) hndt, List.length_cons, List.range'_succ]

/-- Two distinct members of a list occur in one order or the other. -/
lemma pair_sublist_of_mem {α : Type} {l : List α} {a b : α}
    (ha : a ∈ l) (hb : b ∈ l) (hne : a ≠ b) :
    [a, b].Sublist l ∨ [b, a].Sublist l := by
  induction l with
  | nil => simp at ha
  | cons c t ih =>
    rcases List.mem_cons.1 ha with rfl | ha2
    · have hb2 : b ∈ t := by
        rcases List.mem_cons.1 hb with rfl | h
        · exact absurd rfl hne
        · exact h
      exact Or.inl (List.Sublist.cons₂ a (List.singleton_sublist.2 hb2))
    · rcases List.mem_cons.1 hb with rfl | hb2
      · exact Or.inr (List.Sublist.cons₂ b (List.singleton_sublist.2 ha2))
      · exact (ih ha2 hb2).imp (List.Sublist.cons c) (List.Sublist.cons c)

/-- C9: for each position, the computed ranks of the available players at
that position form a bijection onto `1..k` (`k` the number of available
players there): the multiset of their ranks is exactly `1..k`, and the
order is descending base VOR for the active format with ties broken by
catalog order — for `a` before `b` in the input list, `a` ranks ahead
whenever its base VOR is at least `b`'s (so equal VOR keeps catalog order)
and behind whenever its base VOR is smaller. Every `VORResult` carries the
rank of its own player. Requires pairwise-distinct player ids (the catalog
is keyed by id). -/
theorem position_rank_bijection_sorted (fmt : String) (avail : List Player)
    (hids : (avail.map Player.player_id).Nodup) (pos : String) :
    ((avail.filter fun q => q.position == pos).map fun p =>
        (List.lookup p.player_id
          (DynamicVORCalculator.compute_position_ranks fmt avail)).getD 0).Perm
      (List.range' 1 (avail.filter fun q => q.position == pos).length) ∧
    (∀ a b : Player, [a, b].Sublist (avail.filter fun q => q.position == pos) →
      (((List.lookup fmt b.baseline_vor).getD 0 ≤ (List.lookup fmt a.baseline_vor).getD 0 →
        (List.lookup a.player_id
          (DynamicVORCalculator.compute_position_ranks fmt avail)).getD 0 <
        (List.lookup b.player_id
          (DynamicVORCalculator.compute_position_ranks fmt avail)).getD 0) ∧
       ((List.lookup fmt a.baseline_vor).getD 0 < (List.lookup fmt b.baseline_vor).getD 0 →
        (List.lookup b.player_id
          (DynamicVORCalculator.compute_position_ranks fmt avail)).getD 0 <
        (List.lookup a.player_id
          (DynamicVORCalculator.compute_position_ranks fmt avail)).getD 0))) ∧
    (∀ (drafted slots : List (String × Nat)) (roster : List (String × List String)),
      ∀ e ∈ DynamicVORCalculator.calculate_dynamic_vor fmt avail drafted slots roster,
        e.2.position_rank =
          (List.lookup e.2.player_id
            (DynamicVORCalculator.compute_position_ranks fmt avail)).getD 0) := by
  have hgsub : (avail.filter fun q => q.position == pos).Sublist avail :=
    List.filter_sublist avail
  have hgids : ((avail.filter fun q => q.position == pos).map Player.player_id).Nodup :=
    List.Nodup.sublist (hgsub.map Player.player_id) hids
  have hperm : ((avail.filter fun q => q.position == pos).mergeSort
      (DynamicVORCalculator.vorDescLE fmt)).Perm
      (avail.filter fun q => q.position == pos) :=
    List.mergeSort_perm _ _
  have hsids : (((avail.filter fun q => q.position == pos).mergeSort
      (DynamicVORCalculator.vorDescLE fmt)).map Player.player_id).Nodup :=
    ((hperm.map Player.player_id).nodup_iff).2 hgids
  have hsec : ∀ p ∈ avail.filter fun q => q.position == pos,
      List.lookup p.player_id (DynamicVORCalculator.compute_position_ranks fmt avail) =
        List.lookup p.player_id
          (assignRanks 1 ((avail.filter fun q => q.position == pos).mergeSort
            (DynamicVORCalculator.vorDescLE fmt))) := by
    intro p hp
    obtain ⟨hpa, hppos⟩ := List.mem_filter.1 hp
    exact compute_ranks_lookup fmt avail hids pos hpa (by simpa using hppos)
  refine ⟨?_, ?_, ?_⟩
  · rw [List.map_congr_left (fun p hp => by rw [hsec p hp])]
    have hmap := map_lookup_assignRanks _ 1 hsids
    have hlen : ((avail.filter fun q => q.position == pos).mergeSort
        (DynamicVORCalculator.vorDescLE fmt)).length =
        (avail.filter fun q => q.position == pos).length := hperm.length_eq
    exact ((hperm.symm).map _).trans (by rw [hmap, hlen])
  · intro a b hsub2
    have hag : a ∈ avail.filter fun q => q.position == pos := hsub2.subset (by simp)
    have hbg : b ∈ avail.filter fun q => q.position == pos := hsub2.subset (by simp)
    have hane : a ≠ b := by
      intro e
      subst e
      have := List.Nodup.sublist (hsub2.map Player.player_id) hgids
      simp at this
    have hamem : a ∈ (avail.filter fun q => q.position == pos).mergeSort
        (DynamicVORCalculator.vorDescLE fmt) := List.mem_mergeSort.2 hag
    have hbmem : b ∈ (avail.filter fun q => q.position == pos).mergeSort
        (DynamicVORCalculator.vorDescLE fmt) := List.mem_mergeSort.2 hbg
    constructor
    · intro hle
      have hab : DynamicVORCalculator.vorDescLE fmt a b = true := decide_eq_true hle
      have hpair := List.pair_sublist_mergeSort (vorDescLE_trans fmt)
        (vorDescLE_total fmt) hab hsub2
      obtain ⟨i, j, hi, hj, hij⟩ := assignRanks_pair (r := 1) hpair hsids
      rw [hsec a hag, hsec b hbg, hi, hj]
      simpa using hij
    · intro hlt
      rcases pair_sublist_of_mem hamem hbmem hane with hordered | hordered
      · exfalso
        have hpw := List.sorted_mergeSort (vorDescLE_trans fmt) (vorDescLE_total fmt)
          (avail.filter fun q => q.position == pos)
        have hrel := (List.pairwise_cons.1 (List.Pairwise.sublist hordered hpw)).1 b (by simp)
        simp only [DynamicVORCalculator.vorDescLE, decide_eq_true_eq] at hrel
        exact absurd hrel (not_le.2 hlt)
      · obtain ⟨i, j, hi, hj, hij⟩ := assignRanks_pair (r := 1) hordered hsids
        rw [hsec b hbg, hsec a hag, hi, hj]
        simpa using hij
  · intro drafted slots roster e he
    unfold DynamicVORCalculator.calculate_dynamic_vor at he
    simp only [List.mem_map] at he
    obtain ⟨player, hmem, rfl⟩ := he
    rfl

/-- C9 witness: the RB ranks of a concrete three-player pool (two RBs with
equal base VOR, one WR) are a permutation of 1..2. -/
theorem position_rank_bijection_sorted_witness :
    (([demoPlayer "rb1" "RB" 20, demoPlayer "rb2" "RB" 20,
        demoPlayer "wr1" "WR" 15].filter fun q => q.position == "RB").map fun p =>
        (List.lookup p.player_id
          (DynamicVORCalculator.compute_position_ranks "standard"
            [demoPlayer "rb1" "RB" 20, demoPlayer "rb2" "RB" 20,
             demoPlayer "wr1" "WR" 15])).getD 0).Perm
      (List.range' 1 ([demoPlayer "rb1" "RB" 20, demoPlayer "rb2" "RB" 20,
        demoPlayer "wr1" "WR" 15].filter fun q => q.position == "RB").length) :=
  (position_rank_bijection_sorted "standard"
    [demoPlayer "rb1" "RB" 20, demoPlayer "rb2" "RB" 20, demoPlayer "wr1" "WR" 15]
    (by decide) "RB").1
